import Mathlib

/-!
# Formalisation of the LNK-22 WAN bridge server

Shallow embedding of `src/web-client/wan_bridge.py`. Python dictionaries are
modelled as association lists (`List (String × α)`) with insert-or-replace,
erase and lookup mimicking `dict` semantics; wall-clock time (`time.time()`,
`datetime.now()`) is a `Nat` number of seconds passed explicitly; websocket
handles are `Nat` identifiers and the open/closed state of each socket during
one handler invocation is a predicate `openQ : Nat → Bool`; `await ws.send`
becomes an emitted `Effect`, and a send to a closed socket raises
`ConnectionClosed`, modelled by the failure branches below. The SHA-256
fingerprint of `deduplicate_message` is modelled by an injective serialisation
of the message content (hash collisions are abstracted away).
-/

namespace WanBridge

/-- Association-list lookup, mimicking Python `d.get(k)` / `d[k]`. -/
def dictLookup {α : Type} : List (String × α) → String → Option α
  | [], _ => none
  | (k', v) :: rest, k => if k' = k then some v else dictLookup rest k

/-- Association-list insert-or-replace, mimicking Python `d[k] = v`
(replaces in place, otherwise appends, as dict insertion order does). -/
def dictInsert {α : Type} : List (String × α) → String → α → List (String × α)
  | [], k, v => [(k, v)]
  | (k', v') :: rest, k, v =>
      if k' = k then (k, v) :: rest else (k', v') :: dictInsert rest k v

/-- Association-list erase, mimicking Python `del d[k]`. -/
def dictErase {α : Type} : List (String × α) → String → List (String × α)
  | [], _ => []
  | (k', v') :: rest, k => if k' = k then rest else (k', v') :: dictErase rest k

/-- The keys of an association list are pairwise distinct (always true of a
real Python dict; our operations preserve it). -/
def dictKeysUnique {α : Type} (d : List (String × α)) : Prop :=
  (d.map Prod.fst).Nodup

instance {α : Type} (d : List (String × α)) : Decidable (dictKeysUnique d) :=
  inferInstanceAs (Decidable (d.map Prod.fst).Nodup)

/-- `Site` dataclass: one connected mesh site. `ws` is the websocket handle. -/
structure Site where
  site_id : String
  ws : Nat
  name : String
  nodes : List String
  connected_at : Nat
  last_heartbeat : Nat
  messages_relayed : Nat
  bytes_relayed : Nat
deriving Repr, DecidableEq

/-- Inbound messages, by their declared `type` field. `register` carries an
optional `site_id` (absent field → `none`); `dest` of a `mesh_message` is
optional. `other` is any unknown message type. -/
inductive Msg where
  | heartbeat : Msg
  | nodes_update (nodes : List String) : Msg
  | mesh_message (payload : String) (dest : Option String) : Msg
  | query_sites : Msg
  | register (rid : Option String) (rname : String) : Msg
  | other (tag : String) (payload : String) : Msg
deriving Repr, DecidableEq

/-- Serialisation of a message, standing in for `json.dumps(message,
sort_keys=True)`; its value also stands in for the SHA-256 fingerprint
`hashlib.sha256(content).hexdigest()[:16]` (collisions abstracted). -/
def encodeMsg : Msg → String
  | .heartbeat => "type=heartbeat"
  | .nodes_update nodes => "nodes=" ++ String.intercalate "," nodes ++ ";type=nodes_update"
  | .mesh_message payload dest =>
      "dest=" ++ (match dest with | some d => d | none => "null") ++
      ";payload=" ++ payload ++ ";type=mesh_message"
  | .query_sites => "type=query_sites"
  | .register rid rname =>
      "name=" ++ rname ++ ";site_id=" ++
      (match rid with | some s => s | none => "null") ++ ";type=register"
  | .other tag payload => "payload=" ++ payload ++ ";type=" ++ tag

/-- Message fingerprint used by `deduplicate_message`. -/
def fingerprint (m : Msg) : String := encodeMsg m

/-- Outbound messages the bridge sends. -/
inductive OutMsg where
  | relay (m : Msg) : OutMsg
  | site_left (sid : String) (sname : String) : OutMsg
  | sites_update (sites : List (String × String × Nat × Nat)) (total : Nat) : OutMsg
  | sites_list (sites : List (String × String × Nat)) : OutMsg
  | registered (sid : String) : OutMsg
  | err (text : String) : OutMsg
deriving Repr, DecidableEq

/-- Length, in characters, of the serialised outbound message; stands in for
`len(json.dumps(message))` used for `bytes_relayed`. -/
def encodeOut : OutMsg → String
  | .relay m => encodeMsg m
  | .site_left sid sname => "name=" ++ sname ++ ";site_id=" ++ sid ++ ";type=site_left"
  | .sites_update sites total =>
      "sites=" ++ toString (sites.map fun e => (e.1, e.2.1, e.2.2.1, e.2.2.2)) ++
      ";total_sites=" ++ toString total ++ ";type=sites_update"
  | .sites_list sites =>
      "sites=" ++ toString (sites.map fun e => (e.1, e.2.1, e.2.2)) ++ ";type=sites_list"
  | .registered sid => "message=Welcome;site_id=" ++ sid ++ ";type=registered"
  | .err text => "message=" ++ text ++ ";type=error"

/-- I/O performed by the bridge: a send to a registered site (identified by
its site id, the send going to that site's current websocket), a send
directly to a raw websocket handle (the pre-registration replies in
`handler`), or closing a websocket. -/
inductive Effect where
  | send (target : String) (m : OutMsg) : Effect
  | sendDirect (ws : Nat) (m : OutMsg) : Effect
  | close (ws : Nat) : Effect
deriving Repr, DecidableEq

/-- Does the effect deliver an `error` message? -/
def Effect.isErr : Effect → Bool
  | .send _ (.err _) => true
  | .sendDirect _ (.err _) => true
  | _ => false

/-- The `WANBridge` state: `__init__`. -/
structure Bridge where
  sites : List (String × Site)
  seen_messages : List (String × Nat)
  message_ttl : Nat
  routing_table : List (String × String)
  total_messages : Nat
  total_bytes : Nat
deriving Repr, DecidableEq

/-- A fresh bridge, as built by `WANBridge.__init__` at time `now`. -/
def Bridge.init : Bridge :=
  { sites := [], seen_messages := [], message_ttl := 60,
    routing_table := [], total_messages := 0, total_bytes := 0 }

/-- `deduplicate_message`: filters out entries of age `≥ message_ttl`, then
reports `true` (new, timestamp recorded) or `false` (duplicate, untouched). -/
def deduplicate_message (b : Bridge) (now : Nat) (m : Msg) : Bridge × Bool :=
  let msg_hash := fingerprint m
  let seen := b.seen_messages.filter fun p => now - p.2 < b.message_ttl
  if (dictLookup seen msg_hash).isSome then
    ({ b with seen_messages := seen }, false)
  else
    ({ b with seen_messages := dictInsert seen msg_hash now }, true)

/-- `update_routing`: points every reported node address at `site_id` and,
if the site is registered, replaces its node set wholesale. -/
def update_routing (b : Bridge) (site_id : String) (nodes : List String) : Bridge :=
  let rt := nodes.foldl (fun rt node => dictInsert rt node site_id) b.routing_table
  match dictLookup b.sites site_id with
  | some site =>
      { b with routing_table := rt,
               sites := dictInsert b.sites site_id { site with nodes := nodes.eraseDups } }
  | none => { b with routing_table := rt }

/-- `find_route`: `self.routing_table.get(dest_node)`. -/
def find_route (b : Bridge) (dest_node : String) : Option String :=
  dictLookup b.routing_table dest_node

/-- A pending I/O loop of the bridge: either the loop of
`broadcast(message, exclude)` over a snapshot (`list(self.sites.items())`)
of the site dict, or a call to `unregister_site(site_id)`. The two are
mutually recursive in the source — a send to a closed socket raises
`ConnectionClosed`, whose handler unregisters the site, which broadcasts a
`site_left` notification — so they are interpreted together by `execF`. -/
inductive Cmd where
  | bcast (msg : OutMsg) (exclude : Option String) (snapshot : List (String × Site)) : Cmd
  | unreg (site_id : String) : Cmd

/-- Interpreter for `broadcast` / `unregister_site`.

`broadcast` iterates over a snapshot of the site dict, skipping the
excluded site id, sending to each open socket, and — on `ConnectionClosed`
— unregistering the site whose socket is closed. `unregister_site` is a
no-op for an unknown id; otherwise it purges the routing table of entries
owned by the site, deletes the site record, and broadcasts `site_left` to
the remaining sites (excluding the departed id).

The `fuel` argument decreases on every recursive call; it only encodes the
termination argument (each genuine unregistration removes one site, so the
nesting is bounded) and the budget supplied by the entry points below is
never exhausted. -/
def execF (openQ : Nat → Bool) : Nat → Cmd → Bridge → Bridge × List Effect
  | 0, _, b => (b, [])
  | fuel + 1, .bcast msg exclude snapshot, b =>
      match snapshot with
      | [] => (b, [])
      | (sid, site) :: rest =>
          if some sid = exclude then execF openQ fuel (.bcast msg exclude rest) b
          else if openQ site.ws then
            let r := execF openQ fuel (.bcast msg exclude rest) b
            (r.1, Effect.send sid msg :: r.2)
          else
            let u := execF openQ fuel (.unreg sid) b
            let r := execF openQ fuel (.bcast msg exclude rest) u.1
            (r.1, u.2 ++ r.2)
  | fuel + 1, .unreg site_id, b =>
      match dictLookup b.sites site_id with
      | none => (b, [])
      | some site =>
          let b1 : Bridge :=
            { b with routing_table := b.routing_table.filter fun p => p.2 ≠ site_id,
                     sites := dictErase b.sites site_id }
          execF openQ fuel (.bcast (OutMsg.site_left site_id site.name) (some site_id) b1.sites) b1

/-- Fuel budget for one `broadcast` or `unregister_site` call: far more than
the recursion can consume (the nesting depth is bounded by the number of
sites, and each loop level is bounded by the snapshot length). -/
def fuelBudget (b : Bridge) : Nat := (b.sites.length + 2) * (b.sites.length + 2)

/-- Entry point for `unregister_site(site_id)`. -/
def unregister_site (openQ : Nat → Bool) (b : Bridge) (site_id : String) :
    Bridge × List Effect :=
  execF openQ (fuelBudget b) (Cmd.unreg site_id) b

/-- Entry point for `broadcast(message, exclude)`. -/
def broadcast (openQ : Nat → Bool) (b : Bridge) (msg : OutMsg) (exclude : Option String) :
    Bridge × List Effect :=
  execF openQ (fuelBudget b) (Cmd.bcast msg exclude b.sites) b

/-- `relay_to_site`: sends to one registered site; on success increments that
site's `messages_relayed` and `bytes_relayed`; on `ConnectionClosed`
unregisters the target. Returns `true` only on a successful send. -/
def relay_to_site (openQ : Nat → Bool) (b : Bridge) (target : String) (msg : OutMsg) :
    Bridge × List Effect × Bool :=
  match dictLookup b.sites target with
  | some site =>
      if openQ site.ws then
        let len := (encodeOut msg).length
        let site' := { site with messages_relayed := site.messages_relayed + 1,
                                 bytes_relayed := site.bytes_relayed + len }
        ({ b with sites := dictInsert b.sites target site' },
         [Effect.send target msg], true)
      else
        let u := unregister_site openQ b target
        (u.1, u.2, false)
  | none => (b, [], false)

/-- `broadcast_site_update`: site list with ids truncated to 16 characters,
broadcast to every connected site. -/
def broadcast_site_update (openQ : Nat → Bool) (b : Bridge) : Bridge × List Effect :=
  let sites_info := b.sites.map fun p =>
    (p.1.take 16, p.2.name, p.2.nodes.length, p.2.connected_at)
  broadcast openQ b (OutMsg.sites_update sites_info b.sites.length) none

/-- The fresh `Site` record `register_site` builds at time `now`: empty node
set, zeroed counters, defaulted name (`name or f"Site-{site_id[:8]}"`). -/
def freshSite (now : Nat) (ws : Nat) (site_id : String) (name : String) : Site :=
  { site_id := site_id, ws := ws,
    name := if name = "" then "Site-" ++ site_id.take 8 else name,
    nodes := [], connected_at := now, last_heartbeat := now,
    messages_relayed := 0, bytes_relayed := 0 }

/-- `register_site`: builds a fresh `Site` record (defaulting the name) and
stores it under `site_id` — overwriting whatever record was there — then
broadcasts the updated site list. -/
def register_site (openQ : Nat → Bool) (b : Bridge) (now : Nat) (ws : Nat)
    (site_id : String) (name : String) : Bridge × List Effect :=
  broadcast_site_update openQ
    { b with sites := dictInsert b.sites site_id (freshSite now ws site_id name) }

/-- Python truthiness of the optional `dest` field (`if dest:`). -/
def destTruthy : Option String → Bool
  | some d => d ≠ ""
  | none => false

/-- `handle_message`: dispatch on the message type. The third component is
`some e` when the Python code raises an uncaught exception `e`; the returned
bridge reflects every mutation performed before the raise. -/
def handle_message (openQ : Nat → Bool) (b : Bridge) (now : Nat) (site_id : String)
    (m : Msg) : Bridge × List Effect × Option String :=
  match m with
  | .heartbeat =>
      match dictLookup b.sites site_id with
      | some site =>
          ({ b with sites := dictInsert b.sites site_id { site with last_heartbeat := now } },
           [], none)
      | none => (b, [], none)
  | .nodes_update nodes =>
      let b1 := update_routing b site_id nodes
      match dictLookup b1.sites site_id with
      | some _ => (b1, [], none)
      | none => (b1, [], some "KeyError")
  | .mesh_message _ dest =>
      let d := deduplicate_message b now m
      if !d.2 then (d.1, [], none)
      else
        let b2 := { d.1 with total_messages := d.1.total_messages + 1 }
        if destTruthy dest then
          match dest with
          | some dst =>
              match find_route b2 dst with
              | some target =>
                  if target ≠ site_id then
                    let r := relay_to_site openQ b2 target (OutMsg.relay m)
                    (r.1, r.2.1, none)
                  else
                    let r := broadcast openQ b2 (OutMsg.relay m) (some site_id)
                    (r.1, r.2, none)
              | none =>
                  let r := broadcast openQ b2 (OutMsg.relay m) (some site_id)
                  (r.1, r.2, none)
          | none =>
              let r := broadcast openQ b2 (OutMsg.relay m) (some site_id)
              (r.1, r.2, none)
        else
          let r := broadcast openQ b2 (OutMsg.relay m) (some site_id)
          (r.1, r.2, none)
  | .query_sites =>
      let payload := OutMsg.sites_list (b.sites.map fun p =>
        (p.1.take 16, p.2.name, p.2.nodes.length))
      let r := relay_to_site openQ b site_id payload
      (r.1, r.2.1, none)
  | _ =>
      let d := deduplicate_message b now m
      if d.2 then
        let r := broadcast openQ d.1 (OutMsg.relay m) (some site_id)
        (r.1, r.2, none)
      else (d.1, [], none)

/-- Python truthiness of the optional `site_id` field of a `register`
message (`if not site_id:`). -/
def sidTruthy : Option String → Bool
  | some s => s ≠ ""
  | none => false

/-- Result of one iteration of the `async for` loop in `handler`: the new
bridge state, the connection's `site_id` local variable, the effects
performed, and whether the loop continues (`false` models the `return` after
the `site_id required` error, and an uncaught exception aborting the loop). -/
structure StepResult where
  bridge : Bridge
  connSid : Option String
  effects : List Effect
  keepOpen : Bool
deriving Repr, DecidableEq

/-- One iteration of `handler`'s message loop for the connection on socket
`ws`, whose `site_id` local is `connSid`. `raw = none` models a frame that
fails `json.loads` (logged and skipped). -/
def handler_step (openQ : Nat → Bool) (b : Bridge) (now : Nat) (ws : Nat)
    (connSid : Option String) (raw : Option Msg) : StepResult :=
  match raw with
  | none => ⟨b, connSid, [], true⟩
  | some m =>
      match connSid with
      | none =>
          match m with
          | .register rid rname =>
              if !sidTruthy rid then
                ⟨b, none, [Effect.sendDirect ws (OutMsg.err "site_id required")], false⟩
              else
                match rid with
                | some sid =>
                    let r := register_site openQ b now ws sid rname
                    let others := r.1.sites.filter fun p => p.1 ≠ sid
                    ⟨r.1, some sid,
                     r.2 ++
                       [Effect.sendDirect ws (OutMsg.registered sid),
                        Effect.sendDirect ws (OutMsg.sites_list (others.map fun p =>
                          (p.1.take 16, p.2.name, p.2.nodes.length)))],
                     true⟩
                | none => ⟨b, none, [Effect.sendDirect ws (OutMsg.err "site_id required")], false⟩
          | _ =>
              ⟨b, none, [Effect.sendDirect ws (OutMsg.err "Must register first")], true⟩
      | some sid =>
          let r := handle_message openQ b now sid m
          match r.2.2 with
          | some _ => ⟨r.1, some sid, r.2.1, false⟩
          | none =>
              ⟨{ r.1 with total_bytes := r.1.total_bytes + (encodeMsg m).length },
               some sid, r.2.1, true⟩

/-- Interval, in seconds, between passes of `heartbeat_checker`
(`await asyncio.sleep(30)`). -/
def heartbeat_interval : Nat := 30

/-- Heartbeat timeout: a site is evicted when `now - last_heartbeat` exceeds
this many seconds (`timedelta(seconds=90)`). -/
def heartbeat_timeout : Nat := 90

/-- The loop body of one `heartbeat_checker` pass over a snapshot of the
site dict: unregisters every site whose snapshot record's heartbeat is more
than `heartbeat_timeout` seconds old. -/
def heartbeatGo (openQ : Nat → Bool) (now : Nat) :
    List (String × Site) → Bridge → Bridge × List Effect
  | [], b => (b, [])
  | (sid, site) :: rest, b =>
      if heartbeat_timeout < now - site.last_heartbeat then
        let u := unregister_site openQ b sid
        let r := heartbeatGo openQ now rest u.1
        (r.1, u.2 ++ r.2)
      else heartbeatGo openQ now rest b

/-- One pass of `heartbeat_checker` (the body after the 30-second sleep),
taken at time `now`. -/
def heartbeat_pass (openQ : Nat → Bool) (b : Bridge) (now : Nat) : Bridge × List Effect :=
  heartbeatGo openQ now b.sites b

/-- All sockets are open: no send raises `ConnectionClosed`. -/
def allOpen (openQ : Nat → Bool) : Prop := ∀ w, openQ w = true

/-- The everything-open socket state, used to instantiate theorems. -/
def openAll : Nat → Bool := fun _ => true

/-- Site ids of the snapshot entries whose heartbeat, at time `now`, is more
than `heartbeat_timeout` seconds old — the sites one `heartbeat_checker`
pass evicts. -/
def staleIds (now : Nat) (snap : List (String × Site)) : List String :=
  (snap.filter fun p => heartbeat_timeout < now - p.2.last_heartbeat).map Prod.fst

/-! Concrete states used to instantiate the theorems. -/

def siteA : Site :=
  { site_id := "A", ws := 1, name := "Alice", nodes := [], connected_at := 0,
    last_heartbeat := 0, messages_relayed := 0, bytes_relayed := 0 }

def siteB : Site :=
  { site_id := "B", ws := 2, name := "Bob", nodes := [], connected_at := 0,
    last_heartbeat := 0, messages_relayed := 0, bytes_relayed := 0 }

def siteC : Site :=
  { site_id := "C", ws := 3, name := "Carol", nodes := [], connected_at := 0,
    last_heartbeat := 100, messages_relayed := 0, bytes_relayed := 0 }

/-- Bridge with site `A` registered. -/
def bridgeA : Bridge := { Bridge.init with sites := [("A", siteA)] }

/-- Bridge with sites `A` and `B` registered. -/
def bridgeAB : Bridge := { Bridge.init with sites := [("A", siteA), ("B", siteB)] }

/-- Bridge with a stale site `A` (no heartbeat since 0) and a fresh site `C`
(heartbeat at 100). -/
def bridgeAC : Bridge := { Bridge.init with sites := [("A", siteA), ("C", siteC)] }

/-- `bridgeAB` after site `A` reported nodes `n1`, `n2`. -/
def bridgeRouted : Bridge := update_routing bridgeAB "A" ["n1", "n2"]

/-- `bridgeA` after site `A` reported node `n1` and then an empty node list:
the routing entry for the dropped address survives. -/
def bridgeDrop : Bridge := update_routing (update_routing bridgeA "A" ["n1"]) "A" []

/-- A bridge whose deduplication store remembers one mesh message
fingerprint, first seen at time 10. -/
def bridgeSeen : Bridge :=
  { Bridge.init with
    seen_messages := [(fingerprint (Msg.mesh_message "x" none), 10)] }

theorem allOpen_openAll : allOpen openAll := fun _ => rfl

/-! ### Association-list lemmas -/

theorem dictLookup_insert_self {α : Type} (d : List (String × α)) (k : String) (v : α) :
    dictLookup (dictInsert d k v) k = some v := by
  induction d with
  | nil => simp [dictInsert, dictLookup]
  | cons hd tl ih =>
      by_cases h : hd.1 = k
      · simp [dictInsert, h, dictLookup]
      · simpa [dictInsert, h, dictLookup] using ih

theorem dictLookup_insert_ne {α : Type} (d : List (String × α)) (k k' : String) (v : α)
    (h : k' ≠ k) : dictLookup (dictInsert d k v) k' = dictLookup d k' := by
  induction d with
  | nil => simp [dictInsert, dictLookup, Ne.symm h]
  | cons hd tl ih =>
      by_cases hh : hd.1 = k
      · subst hh
        simp [dictInsert, dictLookup, Ne.symm h]
      · simp only [dictInsert, hh, if_false, dictLookup]
        by_cases hk : hd.1 = k'
        · simp [hk]
        · simp [hk, ih]

theorem dictLookup_erase_ne {α : Type} (d : List (String × α)) (k k' : String)
    (h : k' ≠ k) : dictLookup (dictErase d k) k' = dictLookup d k' := by
  induction d with
  | nil => simp [dictErase, dictLookup]
  | cons hd tl ih =>
      by_cases hh : hd.1 = k
      · subst hh
        simp [dictErase, dictLookup, Ne.symm h]
      · simp only [dictErase, hh, if_false, dictLookup]
        by_cases hk : hd.1 = k'
        · simp [hk]
        · simp [hk, ih]

theorem mem_of_dictLookup {α : Type} {d : List (String × α)} {k : String} {v : α}
    (h : dictLookup d k = some v) : (k, v) ∈ d := by
  induction d with
  | nil => simp [dictLookup] at h
  | cons hd tl ih =>
      by_cases hh : hd.1 = k
      · simp only [dictLookup, hh, if_true, Option.some.injEq] at h
        exact List.mem_cons.mpr (Or.inl (by cases hd; simp_all))
      · simp only [dictLookup, hh, if_false] at h
        exact List.mem_cons_of_mem _ (ih h)

theorem dictLookup_of_mem {α : Type} {d : List (String × α)} {k : String} {v : α}
    (hU : dictKeysUnique d) (h : (k, v) ∈ d) : dictLookup d k = some v := by
  induction d with
  | nil => simp at h
  | cons hd tl ih =>
      simp only [dictKeysUnique, List.map_cons, List.nodup_cons] at hU
      rcases List.mem_cons.mp h with h1 | h1
      · subst h1
        simp [dictLookup]
      · have hk : hd.1 ≠ k := by
          intro he
          exact hU.1 (he ▸ (List.mem_map.mpr ⟨(k, v), h1, rfl⟩))
        simp only [dictLookup, hk, if_false]
        exact ih hU.2 h1

theorem dictLookup_eq_none_of_forall {α : Type} {d : List (String × α)} {k : String}
    (h : ∀ v, (k, v) ∉ d) : dictLookup d k = none := by
  induction d with
  | nil => rfl
  | cons hd tl ih =>
      by_cases hh : hd.1 = k
      · exact absurd (hh ▸ List.mem_cons_self hd tl :
          (k, hd.2) ∈ hd :: tl) (h hd.2)
      · simp only [dictLookup, hh, if_false]
        exact ih fun v hv => h v (List.mem_cons_of_mem _ hv)

theorem dictLookup_filter_pos {α : Type} {d : List (String × α)} {k : String} {v : α}
    (p : String × α → Bool) (h : dictLookup d k = some v) (hp : p (k, v) = true) :
    dictLookup (d.filter p) k = some v := by
  induction d with
  | nil => simp [dictLookup] at h
  | cons hd tl ih =>
      by_cases hh : hd.1 = k
      · simp only [dictLookup, hh, if_true, Option.some.injEq] at h
        have : hd = (k, v) := by cases hd; simp_all
        subst this
        simp [List.filter, hp, dictLookup]
      · simp only [dictLookup, hh, if_false] at h
        by_cases hph : p hd = true
        · simp [List.filter, hph, dictLookup, hh, ih h]
        · simp only [List.filter, Bool.not_eq_true] at hph ⊢
          rw [hph]
          exact ih h

theorem dictLookup_filter_unique {α : Type} {d : List (String × α)} {k : String} {v : α}
    (p : String × α → Bool) (hU : dictKeysUnique d) (h : dictLookup d k = some v) :
    dictLookup (d.filter p) k = if p (k, v) then some v else none := by
  by_cases hp : p (k, v) = true
  · simp [hp, dictLookup_filter_pos p h hp]
  · simp only [hp, if_false]
    refine dictLookup_eq_none_of_forall fun w hw => ?_
    have hw' : (k, w) ∈ d := (List.mem_filter.mp hw).1
    have : w = v := by
      have := dictLookup_of_mem hU hw'
      rw [h] at this
      exact (Option.some.injEq _ _ ▸ this.symm :)
    subst this
    exact hp (List.mem_filter.mp hw).2

theorem not_mem_of_dictLookup_none {α : Type} {d : List (String × α)} {k : String}
    (h : dictLookup d k = none) : ∀ v, (k, v) ∉ d := by
  induction d with
  | nil => simp
  | cons hd tl ih =>
      by_cases hh : hd.1 = k
      · simp [dictLookup, hh] at h
      · simp only [dictLookup, hh, if_false] at h
        intro v hv
        rcases List.mem_cons.mp hv with h1 | h1
        · exact hh (by rw [← h1])
        · exact ih h v h1

theorem dictLookup_filter_none {α : Type} {d : List (String × α)} {k : String}
    (p : String × α → Bool) (h : dictLookup d k = none) :
    dictLookup (d.filter p) k = none :=
  dictLookup_eq_none_of_forall fun v hv =>
    not_mem_of_dictLookup_none h v (List.mem_filter.mp hv).1

theorem dictKeysUnique_filter {α : Type} {d : List (String × α)} (p : String × α → Bool)
    (hU : dictKeysUnique d) : dictKeysUnique (d.filter p) := by
  induction d with
  | nil => simp [dictKeysUnique]
  | cons hd tl ih =>
      simp only [dictKeysUnique, List.map_cons, List.nodup_cons] at hU
      by_cases hp : p hd = true
      · simp only [List.filter_cons, hp, if_true, dictKeysUnique, List.map_cons,
          List.nodup_cons]
        refine ⟨fun hmem => ?_, ih hU.2⟩
        rcases List.mem_map.mp hmem with ⟨q, hq, hq1⟩
        exact hU.1 (List.mem_map.mpr ⟨q, (List.mem_filter.mp hq).1, hq1⟩)
      · simp only [List.filter_cons, hp]
        exact ih hU.2

theorem dictErase_eq_filter {α : Type} {d : List (String × α)} {k : String}
    (hU : dictKeysUnique d) : dictErase d k = d.filter fun p => p.1 ≠ k := by
  induction d with
  | nil => rfl
  | cons hd tl ih =>
      simp only [dictKeysUnique, List.map_cons, List.nodup_cons] at hU
      by_cases hh : hd.1 = k
      · subst hh
        have e1 : dictErase (hd :: tl) hd.1 = tl := by simp [dictErase]
        have e2 : List.filter (fun p => decide (p.1 ≠ hd.1)) (hd :: tl)
            = List.filter (fun p => decide (p.1 ≠ hd.1)) tl := by
          rw [List.filter_cons]; simp
        have e3 : List.filter (fun p => decide (p.1 ≠ hd.1)) tl = tl := by
          refine List.filter_eq_self.mpr fun q hq => ?_
          have hne : q.1 ≠ hd.1 := fun he => hU.1 (List.mem_map.mpr ⟨q, hq, he⟩)
          exact decide_eq_true hne
        rw [e1, e2, e3]
      · simp [dictErase, hh, List.filter_cons, ih hU.2]

theorem dictKeysUnique_erase {α : Type} {d : List (String × α)} (k : String)
    (hU : dictKeysUnique d) : dictKeysUnique (dictErase d k) := by
  rw [dictErase_eq_filter hU]
  exact dictKeysUnique_filter _ hU

theorem dictLookup_foldl_insert_not_mem {sid : String} :
    ∀ (nodes : List String) (rt : List (String × String)) (n : String), n ∉ nodes →
      dictLookup (nodes.foldl (fun rt node => dictInsert rt node sid) rt) n =
        dictLookup rt n := by
  intro nodes
  induction nodes with
  | nil => intro rt n _; rfl
  | cons hd tl ih =>
      intro rt n h
      have h1 : n ≠ hd := fun he => h (he ▸ List.mem_cons_self hd tl)
      have h2 : n ∉ tl := fun hm => h (List.mem_cons_of_mem _ hm)
      rw [List.foldl_cons, ih _ n h2, dictLookup_insert_ne _ _ _ _ h1]

theorem dictLookup_foldl_insert_mem {sid : String} :
    ∀ (nodes : List String) (rt : List (String × String)) (n : String), n ∈ nodes →
      dictLookup (nodes.foldl (fun rt node => dictInsert rt node sid) rt) n = some sid := by
  intro nodes
  induction nodes with
  | nil => intro rt n h; simp at h
  | cons hd tl ih =>
      intro rt n h
      by_cases htl : n ∈ tl
      · exact ih _ n htl
      · have h1 : n = hd := by
          rcases List.mem_cons.mp h with h1 | h1
          · exact h1
          · exact absurd h1 htl
        subst h1
        rw [List.foldl_cons, dictLookup_foldl_insert_not_mem tl _ n htl,
            dictLookup_insert_self]

/-! ### Broadcast and unregistration lemmas -/

theorem dictErase_length_lt {α : Type} {d : List (String × α)} {k : String} {v : α}
    (h : dictLookup d k = some v) : (dictErase d k).length < d.length := by
  induction d with
  | nil => simp [dictLookup] at h
  | cons hd tl ih =>
      by_cases hh : hd.1 = k
      · simp [dictErase, hh]
      · simp only [dictLookup, hh, if_false] at h
        simpa [dictErase, hh] using ih h

/-- When every socket is open, `broadcast`'s loop performs exactly one send
per non-excluded site of the snapshot and leaves the bridge unchanged. -/
theorem execF_bcast_allOpen {openQ : Nat → Bool} (hAll : allOpen openQ)
    (msg : OutMsg) (ex : Option String) :
    ∀ (snap : List (String × Site)) (fuel : Nat) (b : Bridge), snap.length < fuel →
      execF openQ fuel (Cmd.bcast msg ex snap) b =
        (b, (snap.filter fun p => some p.1 ≠ ex).map fun p => Effect.send p.1 msg) := by
  intro snap
  induction snap with
  | nil =>
      intro fuel b hf
      match fuel, hf with
      | fuel + 1, _ => rw [execF]; rfl
  | cons hd tl ih =>
      intro fuel b hf
      match fuel, hf with
      | fuel + 1, hf =>
          obtain ⟨sid, site⟩ := hd
          have hlt : tl.length < fuel := by
            simpa [Nat.succ_lt_succ_iff] using hf
          by_cases hex : some sid = ex
          · rw [execF]
            simp only [if_pos hex]
            rw [ih fuel b hlt, List.filter_cons]
            simp [hex]
          · rw [execF]
            simp only [if_neg hex, hAll site.ws, if_pos]
            rw [ih fuel b hlt, List.filter_cons]
            simp [hex]

theorem execF_unreg_not_found {openQ : Nat → Bool} (fuel : Nat) (b : Bridge)
    (sid : String) (h : dictLookup b.sites sid = none) :
    execF openQ fuel (Cmd.unreg sid) b = (b, []) := by
  cases fuel with
  | zero => rw [execF]
  | succ fuel => rw [execF, h]

/-- Closed form of `unregister_site` for a registered site when every socket
is open: purge the routing table, delete the record, send `site_left` to
every remaining site. -/
theorem execF_unreg_allOpen_found {openQ : Nat → Bool} (hAll : allOpen openQ)
    {fuel : Nat} {b : Bridge} {sid : String} {site : Site}
    (h : dictLookup b.sites sid = some site) (hf : b.sites.length < fuel) :
    execF openQ fuel (Cmd.unreg sid) b =
      ({ b with routing_table := b.routing_table.filter fun p => p.2 ≠ sid,
                sites := dictErase b.sites sid },
       ((dictErase b.sites sid).filter fun p => some p.1 ≠ some sid).map
         fun p => Effect.send p.1 (OutMsg.site_left sid site.name)) := by
  match fuel, hf with
  | fuel + 1, hf =>
      rw [execF, h]
      exact execF_bcast_allOpen hAll _ _ _ fuel _
        (lt_of_lt_of_le (dictErase_length_lt h) (Nat.lt_succ_iff.mp hf))

/-- Entries surviving `dictErase` in a unique-key dict do not carry the
erased key, so the `exclude` filter of the `site_left` broadcast is a no-op. -/
theorem dictErase_filter_ne {d : List (String × Site)} {sid : String}
    (hU : dictKeysUnique d) :
    (dictErase d sid).filter (fun p => some p.1 ≠ some sid) = dictErase d sid := by
  rw [dictErase_eq_filter hU]
  refine List.filter_eq_self.mpr fun q hq => ?_
  have := (List.mem_filter.mp hq).2
  have hne : q.1 ≠ sid := by simpa using this
  simp [hne]

theorem sites_length_lt_fuelBudget (b : Bridge) : b.sites.length < fuelBudget b := by
  have h1 : b.sites.length + 2 ≤ (b.sites.length + 2) * (b.sites.length + 2) :=
    Nat.le_mul_of_pos_right _ (by omega)
  calc b.sites.length < b.sites.length + 2 := by omega
    _ ≤ (b.sites.length + 2) * (b.sites.length + 2) := h1

theorem unregister_site_allOpen_found {openQ : Nat → Bool} (hAll : allOpen openQ)
    {b : Bridge} {sid : String} {site : Site}
    (h : dictLookup b.sites sid = some site) (hU : dictKeysUnique b.sites) :
    unregister_site openQ b sid =
      ({ b with routing_table := b.routing_table.filter fun p => p.2 ≠ sid,
                sites := dictErase b.sites sid },
       (dictErase b.sites sid).map
         fun p => Effect.send p.1 (OutMsg.site_left sid site.name)) := by
  rw [unregister_site,
      execF_unreg_allOpen_found hAll h (sites_length_lt_fuelBudget b),
      dictErase_filter_ne hU]

theorem unregister_site_not_found {openQ : Nat → Bool} {b : Bridge} {sid : String}
    (h : dictLookup b.sites sid = none) : unregister_site openQ b sid = (b, []) :=
  execF_unreg_not_found _ _ _ h

theorem broadcast_allOpen {openQ : Nat → Bool} (hAll : allOpen openQ)
    (b : Bridge) (msg : OutMsg) (ex : Option String) :
    broadcast openQ b msg ex =
      (b, (b.sites.filter fun p => some p.1 ≠ ex).map fun p => Effect.send p.1 msg) :=
  execF_bcast_allOpen hAll msg ex b.sites _ b (sites_length_lt_fuelBudget b)

/-- Every effect emitted by the `broadcast`/`unregister_site` interpreter is
a send; for a broadcast its payload is either the broadcast message itself —
and then the target is not the excluded site — or a `site_left` notification
from a nested unregistration; for an unregistration every payload is a
`site_left` notification. -/
theorem execF_effects (openQ : Nat → Bool) : ∀ (fuel : Nat),
    (∀ (b : Bridge) (sid : String), ∀ e ∈ (execF openQ fuel (Cmd.unreg sid) b).2,
       ∃ t s n, e = Effect.send t (OutMsg.site_left s n)) ∧
    (∀ (msg : OutMsg) (ex : Option String) (snap : List (String × Site)) (b : Bridge),
       ∀ e ∈ (execF openQ fuel (Cmd.bcast msg ex snap) b).2,
         ∃ t p, e = Effect.send t p ∧
           ((p = msg ∧ some t ≠ ex) ∨ ∃ s n, p = OutMsg.site_left s n)) := by
  intro fuel
  induction fuel with
  | zero =>
      constructor
      · intro b sid e he; rw [execF] at he; simp at he
      · intro msg ex snap b e he; rw [execF] at he; simp at he
  | succ fuel ih =>
      constructor
      · intro b sid e he
        rw [execF] at he
        cases hl : dictLookup b.sites sid with
        | none => rw [hl] at he; simp at he
        | some site =>
            rw [hl] at he
            rcases ih.2 _ _ _ _ e he with ⟨t, p, hep, hp | hp⟩
            · exact ⟨t, sid, site.name, by rw [hep, hp.1]⟩
            · rcases hp with ⟨s, n, hp⟩
              exact ⟨t, s, n, by rw [hep, hp]⟩
      · intro msg ex snap b e he
        cases snap with
        | nil => rw [execF] at he; simp at he
        | cons hd tl =>
            obtain ⟨sid, site⟩ := hd
            rw [execF] at he
            by_cases hex : some sid = ex
            · rw [if_pos hex] at he
              exact ih.2 _ _ _ _ e he
            · rw [if_neg hex] at he
              by_cases hop : openQ site.ws = true
              · rw [if_pos hop] at he
                rcases List.mem_cons.mp he with h1 | h1
                · exact ⟨sid, msg, h1, Or.inl ⟨rfl, hex⟩⟩
                · exact ih.2 _ _ _ _ e h1
              · rw [if_neg hop] at he
                rcases List.mem_append.mp he with h1 | h1
                · rcases ih.1 _ _ e h1 with ⟨t, s, n, ht⟩
                  exact ⟨t, OutMsg.site_left s n, ht, Or.inr ⟨s, n, rfl⟩⟩
                · exact ih.2 _ _ _ _ e h1

/-- Combined form for the entry point `broadcast`. -/
theorem broadcast_effects (openQ : Nat → Bool) (b : Bridge) (msg : OutMsg)
    (ex : Option String) :
    ∀ e ∈ (broadcast openQ b msg ex).2,
      ∃ t p, e = Effect.send t p ∧
        ((p = msg ∧ some t ≠ ex) ∨ ∃ s n, p = OutMsg.site_left s n) :=
  (execF_effects openQ _).2 msg ex b.sites b

/-- Every effect `unregister_site` emits is a `site_left` send. -/
theorem unregister_site_effects (openQ : Nat → Bool) (b : Bridge) (sid : String) :
    ∀ e ∈ (unregister_site openQ b sid).2,
      ∃ t s n, e = Effect.send t (OutMsg.site_left s n) :=
  (execF_effects openQ _).1 b sid

/-! ### Routing, deduplication and relay lemmas -/

theorem dictLookup_insert_cases {α : Type} (d : List (String × α)) (k k' : String) (v : α) :
    dictLookup (dictInsert d k v) k' = if k = k' then some v else dictLookup d k' := by
  by_cases h : k = k'
  · subst h; simp [dictLookup_insert_self]
  · simp [h, dictLookup_insert_ne d k k' v (Ne.symm h)]

theorem find_route_update_mem (b : Bridge) (sid : String) (nodes : List String) (n : String)
    (h : n ∈ nodes) : find_route (update_routing b sid nodes) n = some sid := by
  rw [update_routing]
  cases dictLookup b.sites sid <;>
    simp [find_route, dictLookup_foldl_insert_mem nodes _ n h]

theorem find_route_update_not_mem (b : Bridge) (sid : String) (nodes : List String)
    (n : String) (h : n ∉ nodes) :
    find_route (update_routing b sid nodes) n = find_route b n := by
  rw [update_routing]
  cases dictLookup b.sites sid <;>
    simp [find_route, dictLookup_foldl_insert_not_mem nodes _ n h]

theorem update_routing_sites_not_found {b : Bridge} {sid : String} (nodes : List String)
    (h : dictLookup b.sites sid = none) : (update_routing b sid nodes).sites = b.sites := by
  rw [update_routing, h]

theorem update_routing_sites_found {b : Bridge} {sid : String} {site : Site}
    (nodes : List String) (h : dictLookup b.sites sid = some site) :
    (update_routing b sid nodes).sites =
      dictInsert b.sites sid { site with nodes := nodes.eraseDups } := by
  rw [update_routing, h]

/-- `deduplicate_message` touches only `seen_messages`. -/
theorem deduplicate_message_sites (b : Bridge) (now : Nat) (m : Msg) :
    (deduplicate_message b now m).1.sites = b.sites ∧
    (deduplicate_message b now m).1.routing_table = b.routing_table ∧
    (deduplicate_message b now m).1.total_messages = b.total_messages ∧
    (deduplicate_message b now m).1.message_ttl = b.message_ttl := by
  rw [deduplicate_message]
  split <;> simp

theorem relay_to_site_found_open {openQ : Nat → Bool} {b : Bridge} {target : String}
    {site : Site} (msg : OutMsg) (h : dictLookup b.sites target = some site)
    (hop : openQ site.ws = true) :
    relay_to_site openQ b target msg =
      ({ b with sites := dictInsert b.sites target
                  { site with messages_relayed := site.messages_relayed + 1,
                              bytes_relayed := site.bytes_relayed + (encodeOut msg).length } },
       [Effect.send target msg], true) := by
  rw [relay_to_site, h]
  simp [hop]

theorem relay_to_site_not_found {openQ : Nat → Bool} {b : Bridge} {target : String}
    (msg : OutMsg) (h : dictLookup b.sites target = none) :
    relay_to_site openQ b target msg = (b, [], false) := by
  rw [relay_to_site, h]

/-- Every effect of `relay_to_site` is the requested send to the requested
target, or a `site_left` send from the failure-path unregistration. -/
theorem relay_to_site_effects (openQ : Nat → Bool) (b : Bridge) (target : String)
    (msg : OutMsg) :
    ∀ e ∈ (relay_to_site openQ b target msg).2.1,
      e = Effect.send target msg ∨ ∃ t s n, e = Effect.send t (OutMsg.site_left s n) := by
  intro e he
  rw [relay_to_site] at he
  cases h : dictLookup b.sites target with
  | none => rw [h] at he; simp at he
  | some site =>
      rw [h] at he
      dsimp only at he
      by_cases hop : openQ site.ws = true
      · rw [if_pos hop] at he
        simp only [List.mem_singleton] at he
        exact Or.inl he
      · rw [if_neg hop] at he
        exact Or.inr (unregister_site_effects openQ b target e he)

/-- A send of the broadcast message itself, emitted by a `broadcast` that
excludes `sid`, never targets `sid`. -/
theorem broadcast_relay_target_ne (openQ : Nat → Bool) (b : Bridge) (m : Msg)
    (sid t : String)
    (hmem : Effect.send t (OutMsg.relay m) ∈
      (broadcast openQ b (OutMsg.relay m) (some sid)).2) : t ≠ sid := by
  rcases broadcast_effects openQ b _ _ _ hmem with ⟨t', p, he, hp | hp⟩
  · rw [Effect.send.injEq] at he
    obtain ⟨h1, h2⟩ := he
    subst h1
    rw [← h2] at hp
    intro hts
    exact hp.2 (by rw [hts])
  · rcases hp with ⟨s, n, hp⟩
    rw [hp, Effect.send.injEq] at he
    exact OutMsg.noConfusion he.2

/-- Closed form of `register_site` when every socket is open: overwrite the
slot with a fresh record and send the updated site list to every site. -/
theorem register_site_allOpen {openQ : Nat → Bool} (hAll : allOpen openQ) (b : Bridge)
    (now ws : Nat) (sid name : String) :
    register_site openQ b now ws sid name =
      ({ b with sites := dictInsert b.sites sid (freshSite now ws sid name) },
       (dictInsert b.sites sid (freshSite now ws sid name)).map fun p =>
         Effect.send p.1 (OutMsg.sites_update
           ((dictInsert b.sites sid (freshSite now ws sid name)).map fun q =>
             (q.1.take 16, q.2.name, q.2.nodes.length, q.2.connected_at))
           (dictInsert b.sites sid (freshSite now ws sid name)).length)) := by
  have hfil : (dictInsert b.sites sid (freshSite now ws sid name)).filter
      (fun p => some p.1 ≠ none) = dictInsert b.sites sid (freshSite now ws sid name) :=
    List.filter_eq_self.mpr fun q hq => by simp
  rw [register_site, broadcast_site_update]
  dsimp only
  rw [broadcast_allOpen hAll, hfil]

/-! ### Claim C1 — registration exclusivity -/

/-- C1 counterexample: with site `A` live (`siteA`, socket 1), a second
`register` for id `A` on socket 2 is not rejected: there is no error reply
and `A`'s record is replaced by a fresh one for the new connection — the
claim's DuplicateSite rejection and untouched original record are both
false on the code. -/
theorem C1_register_counterexample :
    dictLookup bridgeA.sites "A" = some siteA ∧
    dictLookup (handler_step openAll bridgeA 5 2 none
      (some (Msg.register (some "A") "Eve"))).bridge.sites "A" =
      some (freshSite 5 2 "A" "Eve") ∧
    freshSite 5 2 "A" "Eve" ≠ siteA ∧
    (handler_step openAll bridgeA 5 2 none
      (some (Msg.register (some "A") "Eve"))).effects.all (fun e => !e.isErr) = true :=
  ⟨by decide, by decide, by decide, by decide⟩

/-- C1 (amended): a second `register` with a site id that is already live is
accepted, not rejected: `register_site` silently replaces the registry entry
with a fresh `Site` for the new connection (new socket, empty node set, zero
counters, timestamps set to now), leaves every other site's record
untouched, and sends only `sites_update` notifications — never an error. -/
theorem C1_register_overwrites (openQ : Nat → Bool) (hAll : allOpen openQ) (b : Bridge)
    (now ws : Nat) (sid name : String) (old : Site)
    (_hLive : dictLookup b.sites sid = some old) :
    dictLookup (register_site openQ b now ws sid name).1.sites sid =
      some (freshSite now ws sid name) ∧
    (∀ sid2, sid2 ≠ sid →
       dictLookup (register_site openQ b now ws sid name).1.sites sid2 =
         dictLookup b.sites sid2) ∧
    (register_site openQ b now ws sid name).2.all (fun e => !e.isErr) = true := by
  rw [register_site_allOpen hAll]
  refine ⟨dictLookup_insert_self _ _ _, ?_, ?_⟩
  · intro sid2 h2
    exact dictLookup_insert_ne _ _ _ _ h2
  · rw [List.all_eq_true]
    intro e he
    rcases List.mem_map.mp he with ⟨p, _, hp⟩
    rw [← hp]
    rfl

/-- Witness for C1: re-registering `A` (live as `siteA`) on socket 3 yields
the fresh record and leaves `B`'s registration untouched. -/
theorem C1_register_overwrites_witness :
    dictLookup (register_site openAll bridgeAB 5 3 "A" "Eve").1.sites "A" =
      some (freshSite 5 3 "A" "Eve") ∧
    dictLookup (register_site openAll bridgeAB 5 3 "A" "Eve").1.sites "B" =
      dictLookup bridgeAB.sites "B" :=
  ⟨(C1_register_overwrites openAll allOpen_openAll bridgeAB 5 3 "A" "Eve" siteA
      (by decide)).1,
   (C1_register_overwrites openAll allOpen_openAll bridgeAB 5 3 "A" "Eve" siteA
      (by decide)).2.1 "B" (by decide)⟩

/-! ### Claim C5 — no echo -/

/-- C5: no echo — a `mesh_message` received from `sid` is never sent back to
`sid`: the unicast path only relays to a resolved site different from the
sender, and every broadcast of the message (unresolved destination,
destination resolving to the sender, or no destination) excludes the origin. -/
theorem C5_no_echo (openQ : Nat → Bool) (b : Bridge) (now : Nat) (sid : String)
    (payload : String) (dest : Option String) (t : String)
    (hmem : Effect.send t (OutMsg.relay (Msg.mesh_message payload dest)) ∈
      (handle_message openQ b now sid (Msg.mesh_message payload dest)).2.1) :
    t ≠ sid := by
  simp only [handle_message] at hmem
  split at hmem
  · simp at hmem
  · split at hmem
    · split at hmem
      · split at hmem
        · split at hmem
          · rename_i dst target heq hne
            dsimp only at hmem
            rcases relay_to_site_effects openQ _ target _ _ hmem with h1 | ⟨t', s, n, h1⟩
            · rw [Effect.send.injEq] at h1
              rw [h1.1]
              exact hne
            · rw [Effect.send.injEq] at h1
              exact OutMsg.noConfusion h1.2
          · dsimp only at hmem
            exact broadcast_relay_target_ne openQ _ _ sid t hmem
        · dsimp only at hmem
          exact broadcast_relay_target_ne openQ _ _ sid t hmem
      · dsimp only at hmem
        exact broadcast_relay_target_ne openQ _ _ sid t hmem
    · dsimp only at hmem
      exact broadcast_relay_target_ne openQ _ _ sid t hmem

/-- Witness for C5: in `bridgeRouted`, a unicast mesh message from `B` for
node `n1` is relayed to site `A`, which is indeed not the sender. -/
theorem C5_no_echo_witness :
    Effect.send "A" (OutMsg.relay (Msg.mesh_message "hello" (some "n1"))) ∈
      (handle_message openAll bridgeRouted 6 "B" (Msg.mesh_message "hello" (some "n1"))).2.1 ∧
    ("A" : String) ≠ "B" :=
  ⟨by decide, C5_no_echo openAll bridgeRouted 6 "B" "hello" (some "n1") "A" (by decide)⟩

/-- An all-open `broadcast` leaves the bridge state untouched. -/
theorem broadcast_preserves_state {openQ : Nat → Bool} (hAll : allOpen openQ)
    (b : Bridge) (msg : OutMsg) (ex : Option String) :
    (broadcast openQ b msg ex).1 = b := by
  rw [broadcast_allOpen hAll]

/-- `relay_to_site` never changes any site's `last_heartbeat` (it only bumps
the target's relay counters), provided every socket is open. -/
theorem relay_to_site_preserves_lhb {openQ : Nat → Bool} (hAll : allOpen openQ)
    (b : Bridge) (target : String) (msg : OutMsg) (sid2 : String) (s2 : Site)
    (hl : dictLookup (relay_to_site openQ b target msg).1.sites sid2 = some s2) :
    ∃ s0, dictLookup b.sites sid2 = some s0 ∧
      s2.last_heartbeat = s0.last_heartbeat := by
  cases h : dictLookup b.sites target with
  | none =>
      rw [relay_to_site_not_found msg h] at hl
      exact ⟨s2, hl, rfl⟩
  | some site =>
      rw [relay_to_site_found_open msg h (hAll site.ws)] at hl
      dsimp only at hl
      rw [dictLookup_insert_cases] at hl
      by_cases he : target = sid2
      · rw [if_pos he] at hl
        subst he
        rw [Option.some.injEq] at hl
        exact ⟨site, h, by rw [← hl]⟩
      · rw [if_neg he] at hl
        exact ⟨s2, hl, rfl⟩

/-! ### Claim C2 — liveness touch -/

/-- C2 counterexample: a `nodes_update` processed at time 50 from site `A`
(whose `last_heartbeat` is 0) leaves `last_heartbeat` at 0 — traffic other
than explicit heartbeats does not count as liveness, contrary to the claim
that every inbound message touches the site first. -/
theorem C2_touch_counterexample :
    dictLookup (handle_message openAll bridgeAB 50 "A"
      (Msg.nodes_update ["n1"])).1.sites "A" =
      some { siteA with nodes := ["n1"] } ∧
    ({ siteA with nodes := ["n1"] } : Site).last_heartbeat = 0 ∧ (0 : Nat) ≠ 50 :=
  ⟨by decide, rfl, by decide⟩

/-- C2 (amended): only an explicit `heartbeat` message updates the sender's
`last_heartbeat` (to the current time); processing any other message kind —
`nodes_update`, `mesh_message`, `query_sites`, `register` or unknown —
leaves every registered site's `last_heartbeat` unchanged. -/
theorem C2_touch_only_heartbeat (openQ : Nat → Bool) (hAll : allOpen openQ)
    (b : Bridge) (now : Nat) (sid : String) (m : Msg) :
    (m = Msg.heartbeat → ∀ site, dictLookup b.sites sid = some site →
       dictLookup (handle_message openQ b now sid m).1.sites sid =
         some { site with last_heartbeat := now }) ∧
    (m ≠ Msg.heartbeat → ∀ sid2 s2,
       dictLookup (handle_message openQ b now sid m).1.sites sid2 = some s2 →
       ∃ s0, dictLookup b.sites sid2 = some s0 ∧
         s2.last_heartbeat = s0.last_heartbeat) := by
  constructor
  · rintro rfl site h
    simp only [handle_message, h, dictLookup_insert_self]
  · intro hne sid2 s2 hl
    cases m with
    | heartbeat => exact absurd rfl hne
    | nodes_update nodes =>
        have hst : (handle_message openQ b now sid (Msg.nodes_update nodes)).1 =
            update_routing b sid nodes := by
          simp only [handle_message]
          split <;> rfl
        rw [hst, update_routing] at hl
        cases h : dictLookup b.sites sid with
        | none => rw [h] at hl; exact ⟨s2, hl, rfl⟩
        | some site =>
            rw [h] at hl
            dsimp only at hl
            rw [dictLookup_insert_cases] at hl
            by_cases he : sid = sid2
            · rw [if_pos he] at hl
              subst he
              rw [Option.some.injEq] at hl
              exact ⟨site, h, by rw [← hl]⟩
            · rw [if_neg he] at hl
              exact ⟨s2, hl, rfl⟩
    | mesh_message payload dest =>
        have hsit := (deduplicate_message_sites b now (Msg.mesh_message payload dest)).1
        simp only [handle_message] at hl
        split at hl
        · dsimp only at hl
          rw [hsit] at hl
          exact ⟨s2, hl, rfl⟩
        · split at hl
          · split at hl
            · split at hl
              · split at hl
                · dsimp only at hl
                  rcases relay_to_site_preserves_lhb hAll _ _ _ _ _ hl with ⟨s0, h0, hb⟩
                  dsimp only at h0
                  rw [hsit] at h0
                  exact ⟨s0, h0, hb⟩
                · dsimp only at hl
                  rw [broadcast_preserves_state hAll] at hl
                  dsimp only at hl
                  rw [hsit] at hl
                  exact ⟨s2, hl, rfl⟩
              · dsimp only at hl
                rw [broadcast_preserves_state hAll] at hl
                dsimp only at hl
                rw [hsit] at hl
                exact ⟨s2, hl, rfl⟩
            · dsimp only at hl
              rw [broadcast_preserves_state hAll] at hl
              dsimp only at hl
              rw [hsit] at hl
              exact ⟨s2, hl, rfl⟩
          · dsimp only at hl
            rw [broadcast_preserves_state hAll] at hl
            dsimp only at hl
            rw [hsit] at hl
            exact ⟨s2, hl, rfl⟩
    | query_sites =>
        have hst : (handle_message openQ b now sid Msg.query_sites).1 =
            (relay_to_site openQ b sid (OutMsg.sites_list (b.sites.map fun p =>
              (p.1.take 16, p.2.name, p.2.nodes.length)))).1 := by
          simp only [handle_message]
        rw [hst] at hl
        exact relay_to_site_preserves_lhb hAll _ _ _ _ _ hl
    | register rid rname =>
        simp only [handle_message] at hl
        split at hl
        · dsimp only at hl
          rw [broadcast_preserves_state hAll] at hl
          rw [(deduplicate_message_sites b now (Msg.register rid rname)).1] at hl
          exact ⟨s2, hl, rfl⟩
        · dsimp only at hl
          rw [(deduplicate_message_sites b now (Msg.register rid rname)).1] at hl
          exact ⟨s2, hl, rfl⟩
    | other tag payload =>
        simp only [handle_message] at hl
        split at hl
        · dsimp only at hl
          rw [broadcast_preserves_state hAll] at hl
          rw [(deduplicate_message_sites b now (Msg.other tag payload)).1] at hl
          exact ⟨s2, hl, rfl⟩
        · dsimp only at hl
          rw [(deduplicate_message_sites b now (Msg.other tag payload)).1] at hl
          exact ⟨s2, hl, rfl⟩

/-- Witness for C2: a heartbeat from `A` at time 7 sets `A`'s
`last_heartbeat` to 7, while a `nodes_update` from `A` at time 9 leaves the
heartbeat of `A`'s (updated) record equal to its old value. -/
theorem C2_touch_only_heartbeat_witness :
    dictLookup (handle_message openAll bridgeAB 7 "A" Msg.heartbeat).1.sites "A" =
      some { siteA with last_heartbeat := 7 } ∧
    (∃ s0, dictLookup bridgeAB.sites "A" = some s0 ∧
      ({ siteA with nodes := ["n1"] } : Site).last_heartbeat = s0.last_heartbeat) :=
  ⟨(C2_touch_only_heartbeat openAll allOpen_openAll bridgeAB 7 "A" Msg.heartbeat).1 rfl
     siteA (by decide),
   (C2_touch_only_heartbeat openAll allOpen_openAll bridgeAB 9 "A"
     (Msg.nodes_update ["n1"])).2 (by simp) "A" { siteA with nodes := ["n1"] }
     (by decide)⟩

/-! ### Claim C8 — second register on an identified connection -/

/-- C8 counterexample: a `register` sent on `B`'s already-identified
connection is not answered with an error — it is relayed to site `A` as an
unknown message type — so the claim's "replies with an error, does not
forward" is false on the code. -/
theorem C8_second_register_counterexample :
    (handler_step openAll bridgeAB 5 2 (some "B")
      (some (Msg.register (some "B") "X"))).effects =
      [Effect.send "A" (OutMsg.relay (Msg.register (some "B") "X"))] ∧
    (handler_step openAll bridgeAB 5 2 (some "B")
      (some (Msg.register (some "B") "X"))).effects.all (fun e => !e.isErr) = true :=
  ⟨by decide, by decide⟩

/-- C8 (amended): a second `register` on an identified connection is treated
as an unknown message type: the bridge sends no error, does not touch the
site registry or the routing table, keeps the connection open with its site
binding unchanged, and — when the message is not a recent duplicate —
broadcasts the raw register message to every other site. -/
theorem C8_second_register (openQ : Nat → Bool) (hAll : allOpen openQ) (b : Bridge)
    (now ws : Nat) (sid : String) (rid : Option String) (rname : String) :
    (handler_step openQ b now ws (some sid)
      (some (Msg.register rid rname))).bridge.sites = b.sites ∧
    (handler_step openQ b now ws (some sid)
      (some (Msg.register rid rname))).bridge.routing_table = b.routing_table ∧
    (handler_step openQ b now ws (some sid)
      (some (Msg.register rid rname))).connSid = some sid ∧
    (handler_step openQ b now ws (some sid)
      (some (Msg.register rid rname))).keepOpen = true ∧
    (handler_step openQ b now ws (some sid)
      (some (Msg.register rid rname))).effects.all (fun e => !e.isErr) = true ∧
    ((deduplicate_message b now (Msg.register rid rname)).2 = true →
      (handler_step openQ b now ws (some sid)
        (some (Msg.register rid rname))).effects =
        (b.sites.filter fun p => some p.1 ≠ some sid).map
          (fun p => Effect.send p.1 (OutMsg.relay (Msg.register rid rname)))) ∧
    ((deduplicate_message b now (Msg.register rid rname)).2 = false →
      (handler_step openQ b now ws (some sid)
        (some (Msg.register rid rname))).effects = []) := by
  have hsit := (deduplicate_message_sites b now (Msg.register rid rname)).1
  have hrt := (deduplicate_message_sites b now (Msg.register rid rname)).2.1
  by_cases hnew : (deduplicate_message b now (Msg.register rid rname)).2 = true
  · have hr : handle_message openQ b now sid (Msg.register rid rname) =
        ((deduplicate_message b now (Msg.register rid rname)).1,
         ((deduplicate_message b now (Msg.register rid rname)).1.sites.filter
            fun p => some p.1 ≠ some sid).map
           (fun p => Effect.send p.1 (OutMsg.relay (Msg.register rid rname))), none) := by
      simp only [handle_message, hnew, if_true]
      rw [broadcast_allOpen hAll]
    have hstep : handler_step openQ b now ws (some sid)
        (some (Msg.register rid rname)) =
        ⟨{ (deduplicate_message b now (Msg.register rid rname)).1 with
             total_bytes :=
               (deduplicate_message b now (Msg.register rid rname)).1.total_bytes +
                 (encodeMsg (Msg.register rid rname)).length },
         some sid,
         ((deduplicate_message b now (Msg.register rid rname)).1.sites.filter
            fun p => some p.1 ≠ some sid).map
           (fun p => Effect.send p.1 (OutMsg.relay (Msg.register rid rname))), true⟩ := by
      simp only [handler_step, hr]
    rw [hstep]
    refine ⟨hsit, hrt, rfl, rfl, ?_, ?_, ?_⟩
    · rw [List.all_eq_true]
      intro e he
      rcases List.mem_map.mp he with ⟨p, _, hp⟩
      rw [← hp]
      rfl
    · intro _
      rw [hsit]
    · intro hdup
      rw [hdup] at hnew
      cases hnew
  · have hnf : (deduplicate_message b now (Msg.register rid rname)).2 = false :=
      Bool.not_eq_true _ ▸ Bool.eq_false_iff.mpr (fun he => hnew he)
    have hr : handle_message openQ b now sid (Msg.register rid rname) =
        ((deduplicate_message b now (Msg.register rid rname)).1, [], none) := by
      simp only [handle_message, hnf, Bool.false_eq_true, if_false]
    have hstep : handler_step openQ b now ws (some sid)
        (some (Msg.register rid rname)) =
        ⟨{ (deduplicate_message b now (Msg.register rid rname)).1 with
             total_bytes :=
               (deduplicate_message b now (Msg.register rid rname)).1.total_bytes +
                 (encodeMsg (Msg.register rid rname)).length },
         some sid, [], true⟩ := by
      simp only [handler_step, hr]
    rw [hstep]
    exact ⟨hsit, hrt, rfl, rfl, rfl, fun hn => absurd hn hnew, fun _ => rfl⟩

/-- Witness for C8: a repeated `register` on `B`'s identified connection
leaves the registry untouched and the connection open. -/
theorem C8_second_register_witness :
    (handler_step openAll bridgeAB 5 2 (some "B")
      (some (Msg.register (some "B") "X"))).bridge.sites = bridgeAB.sites ∧
    (handler_step openAll bridgeAB 5 2 (some "B")
      (some (Msg.register (some "B") "X"))).keepOpen = true :=
  ⟨(C8_second_register openAll allOpen_openAll bridgeAB 5 2 "B" (some "B") "X").1,
   (C8_second_register openAll allOpen_openAll bridgeAB 5 2 "B" (some "B") "X").2.2.2.1⟩

/-! ### Claim C3 — routing table contents -/

/-- C3 counterexample: with site `A` registered, after `A` reports `n1` and
then reports an empty node list, `n1` is not in `A`'s latest reported set,
yet `resolve(n1)` still returns `A` — the claim's "returns absent otherwise"
is false on the code. -/
theorem C3_routing_counterexample :
    find_route bridgeDrop "n1" = some "A" ∧
    (∃ site, dictLookup bridgeDrop.sites "A" = some site ∧ "n1" ∉ site.nodes) :=
  ⟨by decide, siteA, by decide, by decide⟩

/-- C3 (amended): `update_routing` points every address of the new list at
the reporting site (overwriting any previous owner) and leaves every other
address — including addresses the site just dropped — untouched, so a
dropped address keeps resolving to its previous owner; unregistering a site
purges all routing entries owned by it, making those addresses absent. -/
theorem C3_routing (openQ : Nat → Bool) (hAll : allOpen openQ) (b : Bridge)
    (sid : String) (nodes : List String) (n : String) :
    (n ∈ nodes → find_route (update_routing b sid nodes) n = some sid) ∧
    (n ∉ nodes → find_route (update_routing b sid nodes) n = find_route b n) ∧
    (dictKeysUnique b.sites → ∀ site, dictLookup b.sites sid = some site →
       ∀ nd, find_route (unregister_site openQ b sid).1 nd ≠ some sid) := by
  refine ⟨find_route_update_mem b sid nodes n,
          find_route_update_not_mem b sid nodes n, ?_⟩
  intro hU site h nd hroute
  rw [unregister_site_allOpen_found hAll h hU] at hroute
  have hmem := mem_of_dictLookup hroute
  have := (List.mem_filter.mp hmem).2
  simp at this

/-- Witness for C3: concrete instances of the three conjuncts — `B`
overwrites `A`'s claim to `n1`; an update that drops `n1` leaves its route
what it was; unregistering `A` makes `n1` unresolvable to `A`. -/
theorem C3_routing_witness :
    find_route (update_routing bridgeRouted "B" ["n1"]) "n1" = some "B" ∧
    find_route bridgeDrop "n1" = find_route (update_routing bridgeA "A" ["n1"]) "n1" ∧
    find_route (unregister_site openAll bridgeRouted "A").1 "n1" ≠ some "A" :=
  ⟨(C3_routing openAll allOpen_openAll bridgeRouted "B" ["n1"] "n1").1 (by decide),
   (C3_routing openAll allOpen_openAll (update_routing bridgeA "A" ["n1"]) "A" [] "n1").2.1
     (by decide),
   (C3_routing openAll allOpen_openAll bridgeRouted "A" [] "n1").2.2 (by decide)
     { siteA with nodes := ["n1", "n2"] } (by decide) "n1"⟩

/-! ### Claim C4 — deduplication window -/

/-- C4: first-seen deduplication with a 60-second window. A fingerprint not
present (or only present with age ≥ 60s, lazily evicted) is reported new and
recorded at the current time; a fingerprint recorded less than 60 seconds
ago is reported duplicate and its stored timestamp is left unrefreshed. -/
theorem C4_dedup_window (b : Bridge) (now : Nat) (m : Msg)
    (hTtl : b.message_ttl = 60) (hU : dictKeysUnique b.seen_messages) :
    (dictLookup b.seen_messages (fingerprint m) = none →
       (deduplicate_message b now m).2 = true ∧
       dictLookup (deduplicate_message b now m).1.seen_messages (fingerprint m) = some now) ∧
    (∀ t, dictLookup b.seen_messages (fingerprint m) = some t →
       (now - t < 60 →
         (deduplicate_message b now m).2 = false ∧
         dictLookup (deduplicate_message b now m).1.seen_messages (fingerprint m) = some t) ∧
       (60 ≤ now - t →
         (deduplicate_message b now m).2 = true ∧
         dictLookup (deduplicate_message b now m).1.seen_messages (fingerprint m) = some now)) := by
  constructor
  · intro h
    have hf : dictLookup (b.seen_messages.filter fun p => now - p.2 < b.message_ttl)
        (fingerprint m) = none := dictLookup_filter_none _ h
    refine ⟨?_, ?_⟩
    · simp [deduplicate_message, hf]
    · rw [deduplicate_message]
      simp only [hf, Option.isSome_none, Bool.false_eq_true, if_false]
      exact dictLookup_insert_self _ _ _
  · intro t h
    constructor
    · intro hlt
      have hp : (fun p => decide (now - p.2 < b.message_ttl)) (fingerprint m, t) = true := by
        simp only [hTtl]
        exact decide_eq_true hlt
      have hf := dictLookup_filter_pos (fun p => decide (now - p.2 < b.message_ttl)) h hp
      refine ⟨?_, ?_⟩
      · simp [deduplicate_message, hf]
      · rw [deduplicate_message]
        simp only [hf, Option.isSome_some, if_true]
    · intro hge
      have hf := dictLookup_filter_unique (fun p => decide (now - p.2 < b.message_ttl)) hU h
      simp only [hTtl, decide_eq_true_eq] at hf
      rw [if_neg (by omega)] at hf
      refine ⟨?_, ?_⟩
      · simp [deduplicate_message, hf, hTtl]
      · rw [deduplicate_message]
        simp only [hTtl, hf, Option.isSome_none, Bool.false_eq_true, if_false]
        exact dictLookup_insert_self _ _ _

/-- Witness for C4: a fresh bridge reports a first message new and records
time 5; with the fingerprint recorded at time 10, a repeat at time 30 is a
duplicate keeping timestamp 10, and a repeat at time 70 (age 60) is new
again, recorded at 70. -/
theorem C4_dedup_window_witness :
    ((deduplicate_message Bridge.init 5 (Msg.mesh_message "x" none)).2 = true ∧
     dictLookup (deduplicate_message Bridge.init 5 (Msg.mesh_message "x" none)).1.seen_messages
       (fingerprint (Msg.mesh_message "x" none)) = some 5) ∧
    ((deduplicate_message bridgeSeen 30 (Msg.mesh_message "x" none)).2 = false ∧
     dictLookup (deduplicate_message bridgeSeen 30 (Msg.mesh_message "x" none)).1.seen_messages
       (fingerprint (Msg.mesh_message "x" none)) = some 10) ∧
    ((deduplicate_message bridgeSeen 70 (Msg.mesh_message "x" none)).2 = true ∧
     dictLookup (deduplicate_message bridgeSeen 70 (Msg.mesh_message "x" none)).1.seen_messages
       (fingerprint (Msg.mesh_message "x" none)) = some 70) :=
  ⟨(C4_dedup_window Bridge.init 5 (Msg.mesh_message "x" none) rfl (by decide)).1 rfl,
   ((C4_dedup_window bridgeSeen 30 (Msg.mesh_message "x" none) rfl (by decide)).2 10
     (by decide)).1 (by decide),
   ((C4_dedup_window bridgeSeen 70 (Msg.mesh_message "x" none) rfl (by decide)).2 10
     (by decide)).2 (by decide)⟩

/-! ### Claim C9 — unregister contract -/

/-- C9 counterexample: site `A` is registered with an open connection, yet
`unregister_site("A")` emits only the `site_left` send to `B` and no close
of `A`'s websocket — the claim's "closes the site's connection if not
already closed" is false on the code, which never closes the socket. -/
theorem C9_unregister_counterexample :
    dictLookup bridgeAB.sites "A" = some siteA ∧ openAll siteA.ws = true ∧
    (unregister_site openAll bridgeAB "A").2 =
      [Effect.send "B" (OutMsg.site_left "A" "Alice")] ∧
    (∀ w, Effect.close w ∉ (unregister_site openAll bridgeAB "A").2) := by
  refine ⟨by decide, rfl, by decide, ?_⟩
  intro w hw
  rw [show (unregister_site openAll bridgeAB "A").2 =
        [Effect.send "B" (OutMsg.site_left "A" "Alice")] from by decide] at hw
  simp at hw

/-- C9 (amended): `unregister_site` is idempotent — a no-op for an unknown
id — and for a registered id removes the site record, purges every routing
entry owned by the site, and broadcasts a `site_left` to each remaining
site; it emits no close of the departed site's websocket. -/
theorem C9_unregister (openQ : Nat → Bool) (hAll : allOpen openQ) (b : Bridge)
    (sid : String) (hU : dictKeysUnique b.sites) :
    (dictLookup b.sites sid = none → unregister_site openQ b sid = (b, [])) ∧
    (∀ site, dictLookup b.sites sid = some site →
       (unregister_site openQ b sid).1.sites = dictErase b.sites sid ∧
       (unregister_site openQ b sid).1.routing_table =
         b.routing_table.filter (fun p => p.2 ≠ sid) ∧
       (∀ nd, find_route (unregister_site openQ b sid).1 nd ≠ some sid) ∧
       (unregister_site openQ b sid).2 = (dictErase b.sites sid).map
         (fun p => Effect.send p.1 (OutMsg.site_left sid site.name)) ∧
       (∀ w, Effect.close w ∉ (unregister_site openQ b sid).2)) := by
  constructor
  · exact fun h => unregister_site_not_found h
  · intro site h
    rw [unregister_site_allOpen_found hAll h hU]
    refine ⟨rfl, rfl, ?_, rfl, ?_⟩
    · intro nd hroute
      have hmem := mem_of_dictLookup hroute
      have := (List.mem_filter.mp hmem).2
      simp at this
    · intro w hw
      rcases List.mem_map.mp hw with ⟨p, _, hp⟩
      exact Effect.noConfusion hp

/-- Witness for C9: unregistering the unknown id `Z` leaves `bridgeAB`
untouched; unregistering `A` erases its record, purges its routes and
notifies `B` exactly as the closed form states. -/
theorem C9_unregister_witness :
    unregister_site openAll bridgeAB "Z" = (bridgeAB, []) ∧
    (unregister_site openAll bridgeAB "A").1.sites = dictErase bridgeAB.sites "A" ∧
    find_route (unregister_site openAll bridgeRouted "A").1 "n2" ≠ some "A" :=
  ⟨(C9_unregister openAll allOpen_openAll bridgeAB "Z" (by decide)).1 (by decide),
   ((C9_unregister openAll allOpen_openAll bridgeAB "A" (by decide)).2 siteA (by decide)).1,
   ((C9_unregister openAll allOpen_openAll bridgeRouted "A" (by decide)).2
     { siteA with nodes := ["n1", "n2"] } (by decide)).2.2.1 "n2"⟩

/-! ### Heartbeat-pass lemmas -/

theorem mem_keys_of_mem_keys_filter {α : Type} {l : List (String × α)}
    {p : String × α → Bool} {R : String} (h : R ∈ (l.filter p).map Prod.fst) :
    R ∈ l.map Prod.fst := by
  rcases List.mem_map.mp h with ⟨q, hq, he⟩
  exact List.mem_map.mpr ⟨q, (List.mem_filter.mp hq).1, he⟩

theorem staleIds_subset_keys {now : Nat} {snap : List (String × Site)} :
    ∀ x ∈ staleIds now snap, x ∈ snap.map Prod.fst := by
  intro x hx
  rcases List.mem_map.mp hx with ⟨q, hq, he⟩
  exact List.mem_map.mpr ⟨q, (List.mem_filter.mp hq).1, he⟩

theorem staleIds_cons_stale {now : Nat} {sid : String} {site : Site}
    {rest : List (String × Site)} (h : heartbeat_timeout < now - site.last_heartbeat) :
    staleIds now ((sid, site) :: rest) = sid :: staleIds now rest := by
  simp [staleIds, List.filter_cons, h]

theorem staleIds_cons_fresh {now : Nat} {sid : String} {site : Site}
    {rest : List (String × Site)} (h : ¬ heartbeat_timeout < now - site.last_heartbeat) :
    staleIds now ((sid, site) :: rest) = staleIds now rest := by
  simp [staleIds, List.filter_cons, h]

theorem count_map_send_not_mem {l : List (String × Site)} {R : String} (msg : OutMsg)
    (hR : R ∉ l.map Prod.fst) :
    (l.map fun p => Effect.send p.1 msg).count (Effect.send R msg) = 0 := by
  rw [List.count_eq_zero]
  intro hmem
  rcases List.mem_map.mp hmem with ⟨p, hp, he⟩
  rw [Effect.send.injEq] at he
  exact hR (List.mem_map.mpr ⟨p, hp, he.1⟩)

theorem count_map_send_mem {l : List (String × Site)} {R : String} (msg : OutMsg)
    (hU : (l.map Prod.fst).Nodup) (hR : R ∈ l.map Prod.fst) :
    (l.map fun p => Effect.send p.1 msg).count (Effect.send R msg) = 1 := by
  induction l with
  | nil => simp at hR
  | cons hd tl ih =>
      simp only [List.map_cons, List.nodup_cons] at hU hR
      rcases List.mem_cons.mp hR with h1 | h1
      · subst h1
        rw [List.map_cons, List.count_cons, count_map_send_not_mem msg hU.1]
        simp
      · have hne : R ≠ hd.1 := fun he => hU.1 (he ▸ h1)
        rw [List.map_cons, List.count_cons, ih hU.2 h1]
        simp [beq_iff_eq, Effect.send.injEq, hne]
        exact fun he => hne he.symm

theorem count_map_send_ne_payload {l : List (String × Site)} {R : String}
    {msg msg2 : OutMsg} (h : msg2 ≠ msg) :
    (l.map fun p => Effect.send p.1 msg).count (Effect.send R msg2) = 0 := by
  rw [List.count_eq_zero]
  intro hmem
  rcases List.mem_map.mp hmem with ⟨p, hp, he⟩
  rw [Effect.send.injEq] at he
  exact h he.2.symm

theorem filter_key_notin_cons {α : Type} (l : List (String × α)) (x : String)
    (s : List String) :
    (l.filter fun q => q.1 ≠ x).filter (fun q => q.1 ∉ s) =
      l.filter (fun q => q.1 ∉ x :: s) := by
  induction l with
  | nil => rfl
  | cons hd tl ih =>
      by_cases h1 : hd.1 = x <;> by_cases h2 : hd.1 ∈ s <;>
        simp [List.filter_cons, h1, h2, ih, Bool.and_comm]

theorem filter_val_notin_cons (l : List (String × String)) (x : String)
    (s : List String) :
    (l.filter fun q => q.2 ≠ x).filter (fun q => q.2 ∉ s) =
      l.filter (fun q => q.2 ∉ x :: s) := by
  induction l with
  | nil => rfl
  | cons hd tl ih =>
      by_cases h1 : hd.2 = x <;> by_cases h2 : hd.2 ∈ s <;>
        simp [List.filter_cons, h1, h2, ih, Bool.and_comm]

/-- One pass of the heartbeat checker over a snapshot agreeing with the
registry: stale snapshot sites are removed, their routes purged, every
emitted effect is a `site_left` send for a stale site, and each site
registered at the end of the pass received exactly one `site_left` per
evicted site. -/
theorem heartbeatGo_spec {openQ : Nat → Bool} (hAll : allOpen openQ) (now : Nat) :
    ∀ (snap : List (String × Site)) (b : Bridge),
      dictKeysUnique b.sites →
      (snap.map Prod.fst).Nodup →
      (∀ p ∈ snap, dictLookup b.sites p.1 = some p.2) →
      (heartbeatGo openQ now snap b).1.sites =
          b.sites.filter (fun q => q.1 ∉ staleIds now snap) ∧
      (heartbeatGo openQ now snap b).1.routing_table =
          b.routing_table.filter (fun q => q.2 ∉ staleIds now snap) ∧
      (∀ e ∈ (heartbeatGo openQ now snap b).2,
         ∃ t X nX, e = Effect.send t (OutMsg.site_left X nX) ∧ X ∈ staleIds now snap) ∧
      (∀ R X siteX, R ∈ ((heartbeatGo openQ now snap b).1.sites.map Prod.fst) →
         (X, siteX) ∈ snap → heartbeat_timeout < now - siteX.last_heartbeat →
         (heartbeatGo openQ now snap b).2.count
           (Effect.send R (OutMsg.site_left X siteX.name)) = 1) := by
  intro snap
  induction snap with
  | nil =>
      intro b hU hN hA
      refine ⟨?_, ?_, ?_, ?_⟩
      · rw [heartbeatGo]
        symm
        exact List.filter_eq_self.mpr fun q hq => by simp [staleIds]
      · rw [heartbeatGo]
        symm
        exact List.filter_eq_self.mpr fun q hq => by simp [staleIds]
      · intro e he
        rw [heartbeatGo] at he
        simp at he
      · intro R X siteX _ hmem _
        simp at hmem
  | cons hd rest ih =>
      intro b hU hN hA
      obtain ⟨sid, site⟩ := hd
      simp only [List.map_cons, List.nodup_cons] at hN
      have hLook : dictLookup b.sites sid = some site :=
        hA (sid, site) (List.mem_cons_self _ _)
      by_cases hstale : heartbeat_timeout < now - site.last_heartbeat
      · have hGo : heartbeatGo openQ now ((sid, site) :: rest) b =
            ((heartbeatGo openQ now rest
                { b with routing_table := b.routing_table.filter fun p => p.2 ≠ sid,
                         sites := dictErase b.sites sid }).1,
             ((dictErase b.sites sid).map fun p =>
                Effect.send p.1 (OutMsg.site_left sid site.name)) ++
             (heartbeatGo openQ now rest
                { b with routing_table := b.routing_table.filter fun p => p.2 ≠ sid,
                         sites := dictErase b.sites sid }).2) := by
          rw [heartbeatGo, if_pos hstale, unregister_site_allOpen_found hAll hLook hU]
        have hU1 : dictKeysUnique
            ({ b with routing_table := b.routing_table.filter fun p => p.2 ≠ sid,
                      sites := dictErase b.sites sid } : Bridge).sites := by
          show dictKeysUnique (dictErase b.sites sid)
          exact dictKeysUnique_erase _ hU
        have hA1 : ∀ p ∈ rest, dictLookup
            ({ b with routing_table := b.routing_table.filter fun p => p.2 ≠ sid,
                      sites := dictErase b.sites sid } : Bridge).sites p.1 = some p.2 := by
          intro p hp
          have hne : p.1 ≠ sid := fun he => hN.1 (he ▸ List.mem_map.mpr ⟨p, hp, rfl⟩)
          show dictLookup (dictErase b.sites sid) p.1 = some p.2
          rw [dictLookup_erase_ne _ _ _ hne]
          exact hA p (List.mem_cons_of_mem _ hp)
        obtain ⟨ih1, ih2, ih3, ih4⟩ :=
          ih { b with routing_table := b.routing_table.filter fun p => p.2 ≠ sid,
                      sites := dictErase b.sites sid } hU1 hN.2 hA1
        refine ⟨?_, ?_, ?_, ?_⟩
        · rw [hGo]
          dsimp only
          rw [ih1, staleIds_cons_stale hstale]
          show (dictErase b.sites sid).filter _ = _
          rw [dictErase_eq_filter hU, filter_key_notin_cons]
        · rw [hGo]
          dsimp only
          rw [ih2, staleIds_cons_stale hstale]
          show (b.routing_table.filter fun p => p.2 ≠ sid).filter _ = _
          rw [filter_val_notin_cons]
        · intro e he
          rw [hGo] at he
          dsimp only at he
          rw [staleIds_cons_stale hstale]
          rcases List.mem_append.mp he with h1 | h1
          · rcases List.mem_map.mp h1 with ⟨p, hp, he2⟩
            exact ⟨p.1, sid, site.name, he2.symm, List.mem_cons_self _ _⟩
          · rcases ih3 e h1 with ⟨t, X, nX, he2, hX⟩
            exact ⟨t, X, nX, he2, List.mem_cons_of_mem _ hX⟩
        · intro R X siteX hR hmem hstX
          rw [hGo] at hR ⊢
          dsimp only at hR ⊢
          have hRkeys : R ∈ (dictErase b.sites sid).map Prod.fst := by
            rw [ih1] at hR
            exact mem_keys_of_mem_keys_filter hR
          rw [List.count_append]
          rcases List.mem_cons.mp hmem with h1 | h1
          · rw [Prod.mk.injEq] at h1
            obtain ⟨rfl, rfl⟩ := h1
            rw [count_map_send_mem _ hU1 hRkeys]
            have hz : (heartbeatGo openQ now rest
                { b with routing_table := b.routing_table.filter fun p => p.2 ≠ X,
                         sites := dictErase b.sites X }).2.count
                (Effect.send R (OutMsg.site_left X siteX.name)) = 0 := by
              rw [List.count_eq_zero]
              intro hmem2
              rcases ih3 _ hmem2 with ⟨t, X2, nX2, he2, hX2⟩
              rw [Effect.send.injEq] at he2
              rw [OutMsg.site_left.injEq] at he2
              have : X ∈ rest.map Prod.fst :=
                staleIds_subset_keys _ (he2.2.1 ▸ hX2)
              exact hN.1 this
            rw [hz]
          · have hXne : X ≠ sid := by
              intro he
              exact hN.1 (he ▸ List.mem_map.mpr ⟨(X, siteX), h1, rfl⟩)
            have hz1 : (((dictErase b.sites sid).map fun p =>
                Effect.send p.1 (OutMsg.site_left sid site.name))).count
                (Effect.send R (OutMsg.site_left X siteX.name)) = 0 := by
              refine count_map_send_ne_payload ?_
              intro he
              rw [OutMsg.site_left.injEq] at he
              exact hXne he.1
            rw [hz1, ih4 R X siteX hR h1 hstX]
      · have hGo : heartbeatGo openQ now ((sid, site) :: rest) b =
            heartbeatGo openQ now rest b := by
          rw [heartbeatGo, if_neg hstale]
        obtain ⟨ih1, ih2, ih3, ih4⟩ :=
          ih b hU hN.2 (fun p hp => hA p (List.mem_cons_of_mem _ hp))
        rw [hGo, staleIds_cons_fresh hstale]
        refine ⟨ih1, ih2, ih3, ?_⟩
        intro R X siteX hR hmem hstX
        rcases List.mem_cons.mp hmem with h1 | h1
        · rw [Prod.mk.injEq] at h1
          exact absurd (h1.2 ▸ hstX) hstale
        · exact ih4 R X siteX hR h1 hstX

/-! ### Claim C6 — heartbeat eviction -/

/-- C6: the heartbeat monitor sleeps 30 seconds between passes, and on a
pass at time `now` every registered site whose `last_heartbeat` is more than
90 seconds old is unregistered with its routes purged, every site whose
heartbeat is fresh survives with its record untouched, and each site still
registered at the end of the pass received exactly one `site_left`
notification per evicted site. -/
theorem C6_heartbeat_eviction (openQ : Nat → Bool) (hAll : allOpen openQ) (b : Bridge)
    (now : Nat) (hU : dictKeysUnique b.sites) :
    heartbeat_interval = 30 ∧ heartbeat_timeout = 90 ∧
    (∀ sid site, dictLookup b.sites sid = some site →
       heartbeat_timeout < now - site.last_heartbeat →
       dictLookup (heartbeat_pass openQ b now).1.sites sid = none ∧
       (∀ nd, find_route (heartbeat_pass openQ b now).1 nd ≠ some sid)) ∧
    (∀ sid site, dictLookup b.sites sid = some site →
       ¬ heartbeat_timeout < now - site.last_heartbeat →
       dictLookup (heartbeat_pass openQ b now).1.sites sid = some site) ∧
    (∀ R sR X siteX, dictLookup (heartbeat_pass openQ b now).1.sites R = some sR →
       dictLookup b.sites X = some siteX →
       heartbeat_timeout < now - siteX.last_heartbeat →
       (heartbeat_pass openQ b now).2.count
         (Effect.send R (OutMsg.site_left X siteX.name)) = 1) := by
  simp only [heartbeat_pass]
  obtain ⟨h1, h2, h3, h4⟩ := heartbeatGo_spec hAll now b.sites b hU hU
    (fun p hp => dictLookup_of_mem hU hp)
  refine ⟨rfl, rfl, ?_, ?_, ?_⟩
  · intro sid site hLook hstale
    have hmemStale : sid ∈ staleIds now b.sites := by
      refine List.mem_map.mpr ⟨(sid, site), ?_, rfl⟩
      exact List.mem_filter.mpr ⟨mem_of_dictLookup hLook, decide_eq_true hstale⟩
    constructor
    · rw [h1, dictLookup_filter_unique _ hU hLook]
      simp [hmemStale]
    · intro nd hroute
      rw [find_route] at hroute
      rw [h2] at hroute
      have hmem := mem_of_dictLookup hroute
      have := (List.mem_filter.mp hmem).2
      rw [decide_eq_true_eq] at this
      exact this hmemStale
  · intro sid site hLook hfresh
    have hnotStale : sid ∉ staleIds now b.sites := by
      intro hmem
      rcases List.mem_map.mp hmem with ⟨q, hq, hq1⟩
      have hlq := dictLookup_of_mem hU (List.mem_filter.mp hq).1
      rw [hq1, hLook] at hlq
      have hq2 : q.2 = site := by
        rw [Option.some.injEq] at hlq
        exact hlq.symm
      have := (List.mem_filter.mp hq).2
      rw [decide_eq_true_eq] at this
      rw [hq2] at this
      exact hfresh this
    rw [h1]
    exact dictLookup_filter_pos _ hLook (decide_eq_true hnotStale)
  · intro R sR X siteX hRl hXl hstX
    have hRkeys : R ∈ (heartbeatGo openQ now b.sites b).1.sites.map Prod.fst :=
      List.mem_map.mpr ⟨(R, sR), mem_of_dictLookup hRl, rfl⟩
    exact h4 R X siteX hRkeys (mem_of_dictLookup hXl) hstX

/-- Witness for C6: on `bridgeAC` at time 100, stale site `A` (last
heartbeat 0) is evicted while fresh site `C` (last heartbeat 100) survives
and receives `site_left` for `A` exactly once. -/
theorem C6_heartbeat_eviction_witness :
    dictLookup (heartbeat_pass openAll bridgeAC 100).1.sites "A" = none ∧
    dictLookup (heartbeat_pass openAll bridgeAC 100).1.sites "C" = some siteC ∧
    (heartbeat_pass openAll bridgeAC 100).2.count
      (Effect.send "C" (OutMsg.site_left "A" "Alice")) = 1 :=
  ⟨((C6_heartbeat_eviction openAll allOpen_openAll bridgeAC 100 (by decide)).2.2.1 "A"
      siteA (by decide) (by decide)).1,
   (C6_heartbeat_eviction openAll allOpen_openAll bridgeAC 100 (by decide)).2.2.2.1 "C"
      siteC (by decide) (by decide),
   (C6_heartbeat_eviction openAll allOpen_openAll bridgeAC 100 (by decide)).2.2.2.2 "C"
      siteC "A" siteA (by decide) (by decide) (by decide)⟩

/-! ### Claim C7 — relay counter attribution -/

/-- `relay_to_site` never changes the global message counter, provided
every socket is open. -/
theorem relay_to_site_total {openQ : Nat → Bool} (hAll : allOpen openQ)
    (b : Bridge) (target : String) (msg : OutMsg) :
    (relay_to_site openQ b target msg).1.total_messages = b.total_messages := by
  cases h : dictLookup b.sites target with
  | none => rw [relay_to_site_not_found msg h]
  | some site => rw [relay_to_site_found_open msg h (hAll site.ws)]

/-- C7 counterexample: a new unicast `mesh_message` from `B` to a node of
`A` is forwarded (one relay send), yet `B`'s — the sending site's — relay
counters stay at zero; the increments land on the destination instead. -/
theorem C7_relay_counters_counterexample :
    (handle_message openAll bridgeRouted 6 "B"
      (Msg.mesh_message "hello" (some "n1"))).2.1 =
      [Effect.send "A" (OutMsg.relay (Msg.mesh_message "hello" (some "n1")))] ∧
    dictLookup (handle_message openAll bridgeRouted 6 "B"
      (Msg.mesh_message "hello" (some "n1"))).1.sites "B" = some siteB ∧
    siteB.messages_relayed = 0 ∧ siteB.bytes_relayed = 0 :=
  ⟨by decide, by decide, rfl, rfl⟩

/-- C7 (amended): for a duplicate `mesh_message` nothing is counted and
nothing is sent. For every new (non-duplicate) `mesh_message`, whatever its
destination field, the global message counter rises by exactly one. Per-site
counters: on a successful unicast relay the **destination** site's
`messages_relayed`/`bytes_relayed` are incremented while the sender's record
is untouched; every broadcast path — falsy destination, unresolved route, or
route resolving to the sender — and a relay whose target site is not
registered leave every site's record (hence every per-site counter)
unchanged. -/
theorem C7_relay_counters (openQ : Nat → Bool) (hAll : allOpen openQ) (b : Bridge)
    (now : Nat) (sid : String) (payload : String) :
    (∀ dest, (deduplicate_message b now (Msg.mesh_message payload dest)).2 = false →
       (handle_message openQ b now sid (Msg.mesh_message payload dest)).1.sites = b.sites ∧
       (handle_message openQ b now sid (Msg.mesh_message payload dest)).1.total_messages =
         b.total_messages ∧
       (handle_message openQ b now sid (Msg.mesh_message payload dest)).2.1 = []) ∧
    (∀ dest, (deduplicate_message b now (Msg.mesh_message payload dest)).2 = true →
       (handle_message openQ b now sid (Msg.mesh_message payload dest)).1.total_messages =
         b.total_messages + 1) ∧
    (∀ dst target tsite,
       (deduplicate_message b now (Msg.mesh_message payload (some dst))).2 = true →
       dst ≠ "" → find_route b dst = some target → target ≠ sid →
       dictLookup b.sites target = some tsite →
       dictLookup (handle_message openQ b now sid
           (Msg.mesh_message payload (some dst))).1.sites target =
         some { tsite with
                messages_relayed := tsite.messages_relayed + 1,
                bytes_relayed := tsite.bytes_relayed +
                  (encodeOut (OutMsg.relay (Msg.mesh_message payload (some dst)))).length } ∧
       (sid ≠ target →
         dictLookup (handle_message openQ b now sid
             (Msg.mesh_message payload (some dst))).1.sites sid =
           dictLookup b.sites sid)) ∧
    (∀ dest, (deduplicate_message b now (Msg.mesh_message payload dest)).2 = true →
       (destTruthy dest = false ∨
        (∃ dst, dest = some dst ∧ find_route b dst = none) ∨
        (∃ dst, dest = some dst ∧ find_route b dst = some sid)) →
       (handle_message openQ b now sid (Msg.mesh_message payload dest)).1.sites =
         b.sites) ∧
    (∀ dst target,
       (deduplicate_message b now (Msg.mesh_message payload (some dst))).2 = true →
       dst ≠ "" → find_route b dst = some target → target ≠ sid →
       dictLookup b.sites target = none →
       (handle_message openQ b now sid
           (Msg.mesh_message payload (some dst))).1.sites = b.sites ∧
       (handle_message openQ b now sid
           (Msg.mesh_message payload (some dst))).2.1 = []) := by
  refine ⟨?_, ?_, ?_, ?_, ?_⟩
  · intro dest hdup
    have hsit := (deduplicate_message_sites b now (Msg.mesh_message payload dest)).1
    have htot := (deduplicate_message_sites b now (Msg.mesh_message payload dest)).2.2.1
    simp only [handle_message, hdup, Bool.not_false, if_true]
    exact ⟨hsit, htot, trivial⟩
  · intro dest hnew
    have hrtm := (deduplicate_message_sites b now (Msg.mesh_message payload dest)).2.1
    have htot := (deduplicate_message_sites b now (Msg.mesh_message payload dest)).2.2.1
    by_cases hdt : destTruthy dest = true
    · cases dest with
      | none => simp [destTruthy] at hdt
      | some dst =>
          cases hfr0 : find_route b dst with
          | none =>
              have hfr : find_route
                  { (deduplicate_message b now (Msg.mesh_message payload (some dst))).1 with
                    total_messages :=
                      (deduplicate_message b now
                        (Msg.mesh_message payload (some dst))).1.total_messages + 1 } dst =
                  none := by
                show dictLookup _ dst = none
                dsimp only
                rw [hrtm]
                exact hfr0
              simp only [handle_message, hnew, Bool.not_true, Bool.false_eq_true, if_false,
                hdt, if_true, hfr, broadcast_preserves_state hAll]
              simp [htot]
          | some target =>
              have hfr : find_route
                  { (deduplicate_message b now (Msg.mesh_message payload (some dst))).1 with
                    total_messages :=
                      (deduplicate_message b now
                        (Msg.mesh_message payload (some dst))).1.total_messages + 1 } dst =
                  some target := by
                show dictLookup _ dst = some target
                dsimp only
                rw [hrtm]
                exact hfr0
              by_cases hne : target ≠ sid
              · simp only [handle_message, hnew, Bool.not_true, Bool.false_eq_true, if_false,
                  hdt, if_true, hfr, if_pos hne]
                rw [relay_to_site_total hAll]
                simp [htot]
              · simp only [handle_message, hnew, Bool.not_true, Bool.false_eq_true, if_false,
                  hdt, if_true, hfr, if_neg hne, broadcast_preserves_state hAll]
                simp [htot]
    · have hdtf : destTruthy dest = false := by
        rcases Bool.dichotomy (destTruthy dest) with h | h
        · exact h
        · exact absurd h hdt
      simp only [handle_message, hnew, Bool.not_true, Bool.false_eq_true, if_false, hdtf,
        broadcast_preserves_state hAll]
      simp [htot]
  · intro dst target tsite hnew hne0 hRoute hne hT
    have hsit := (deduplicate_message_sites b now (Msg.mesh_message payload (some dst))).1
    have hrtm :=
      (deduplicate_message_sites b now (Msg.mesh_message payload (some dst))).2.1
    have hdt : destTruthy (some dst) = true := by
      simp [destTruthy, hne0]
    have hfr : find_route
        { (deduplicate_message b now (Msg.mesh_message payload (some dst))).1 with
          total_messages :=
            (deduplicate_message b now
              (Msg.mesh_message payload (some dst))).1.total_messages + 1 } dst =
        some target := by
      show dictLookup _ dst = some target
      dsimp only
      rw [hrtm]
      exact hRoute
    have hT2 : dictLookup
        ({ (deduplicate_message b now (Msg.mesh_message payload (some dst))).1 with
           total_messages :=
             (deduplicate_message b now
               (Msg.mesh_message payload (some dst))).1.total_messages + 1 } : Bridge).sites
        target = some tsite := by
      dsimp only
      rw [hsit]
      exact hT
    simp only [handle_message, hnew, Bool.not_true, Bool.false_eq_true, if_false, hdt,
      if_true, hfr, if_pos hne, relay_to_site_found_open _ hT2 (hAll tsite.ws)]
    refine ⟨dictLookup_insert_self _ _ _, ?_⟩
    intro hst
    rw [dictLookup_insert_ne _ _ _ _ hst]
    rw [hsit]
  · intro dest hnew hcase
    have hsit := (deduplicate_message_sites b now (Msg.mesh_message payload dest)).1
    have hrtm := (deduplicate_message_sites b now (Msg.mesh_message payload dest)).2.1
    rcases hcase with hdtf | ⟨dst, rfl, hfrn⟩ | ⟨dst, rfl, hfrs⟩
    · simp only [handle_message, hnew, Bool.not_true, Bool.false_eq_true, if_false, hdtf,
        broadcast_preserves_state hAll]
      exact hsit
    · by_cases hdt : destTruthy (some dst) = true
      · have hfr : find_route
            { (deduplicate_message b now (Msg.mesh_message payload (some dst))).1 with
              total_messages :=
                (deduplicate_message b now
                  (Msg.mesh_message payload (some dst))).1.total_messages + 1 } dst =
            none := by
          show dictLookup _ dst = none
          dsimp only
          rw [hrtm]
          exact hfrn
        simp only [handle_message, hnew, Bool.not_true, Bool.false_eq_true, if_false, hdt,
          if_true, hfr, broadcast_preserves_state hAll]
        exact hsit
      · have hdtf : destTruthy (some dst) = false := by
          rcases Bool.dichotomy (destTruthy (some dst)) with h | h
          · exact h
          · exact absurd h hdt
        simp only [handle_message, hnew, Bool.not_true, Bool.false_eq_true, if_false, hdtf,
          broadcast_preserves_state hAll]
        exact hsit
    · by_cases hdt : destTruthy (some dst) = true
      · have hfr : find_route
            { (deduplicate_message b now (Msg.mesh_message payload (some dst))).1 with
              total_messages :=
                (deduplicate_message b now
                  (Msg.mesh_message payload (some dst))).1.total_messages + 1 } dst =
            some sid := by
          show dictLookup _ dst = some sid
          dsimp only
          rw [hrtm]
          exact hfrs
        simp only [handle_message, hnew, Bool.not_true, Bool.false_eq_true, if_false, hdt,
          if_true, hfr]
        rw [if_neg (fun h => h rfl), broadcast_preserves_state hAll]
        exact hsit
      · have hdtf : destTruthy (some dst) = false := by
          rcases Bool.dichotomy (destTruthy (some dst)) with h | h
          · exact h
          · exact absurd h hdt
        simp only [handle_message, hnew, Bool.not_true, Bool.false_eq_true, if_false, hdtf,
          broadcast_preserves_state hAll]
        exact hsit
  · intro dst target hnew hne0 hRoute hne hT
    have hsit := (deduplicate_message_sites b now (Msg.mesh_message payload (some dst))).1
    have hrtm :=
      (deduplicate_message_sites b now (Msg.mesh_message payload (some dst))).2.1
    have hdt : destTruthy (some dst) = true := by
      simp [destTruthy, hne0]
    have hfr : find_route
        { (deduplicate_message b now (Msg.mesh_message payload (some dst))).1 with
          total_messages :=
            (deduplicate_message b now
              (Msg.mesh_message payload (some dst))).1.total_messages + 1 } dst =
        some target := by
      show dictLookup _ dst = some target
      dsimp only
      rw [hrtm]
      exact hRoute
    have hT2 : dictLookup
        ({ (deduplicate_message b now (Msg.mesh_message payload (some dst))).1 with
           total_messages :=
             (deduplicate_message b now
               (Msg.mesh_message payload (some dst))).1.total_messages + 1 } : Bridge).sites
        target = none := by
      dsimp only
      rw [hsit]
      exact hT
    simp only [handle_message, hnew, Bool.not_true, Bool.false_eq_true, if_false, hdt,
      if_true, hfr, if_pos hne, relay_to_site_not_found _ hT2]
    exact ⟨hsit, trivial⟩

/-- Witness for C7: on `bridgeRouted`, a new unicast mesh message from `B`
to `A`'s node `n1` bumps the global counter and `A`'s relay counters while
leaving `B`'s record as it was; a new broadcast mesh message (no
destination) leaves every site record untouched. -/
theorem C7_relay_counters_witness :
    (handle_message openAll bridgeRouted 6 "B"
        (Msg.mesh_message "hello" (some "n1"))).1.total_messages =
      bridgeRouted.total_messages + 1 ∧
    dictLookup (handle_message openAll bridgeRouted 6 "B"
        (Msg.mesh_message "hello" (some "n1"))).1.sites "A" =
      some { { siteA with nodes := ["n1", "n2"] } with
             messages_relayed := ({ siteA with nodes := ["n1", "n2"] } : Site).messages_relayed + 1,
             bytes_relayed := ({ siteA with nodes := ["n1", "n2"] } : Site).bytes_relayed +
               (encodeOut (OutMsg.relay (Msg.mesh_message "hello" (some "n1")))).length } ∧
    dictLookup (handle_message openAll bridgeRouted 6 "B"
        (Msg.mesh_message "hello" (some "n1"))).1.sites "B" =
      dictLookup bridgeRouted.sites "B" ∧
    (handle_message openAll bridgeRouted 6 "B"
        (Msg.mesh_message "hello" none)).1.sites = bridgeRouted.sites ∧
    (handle_message openAll bridgeRouted 6 "B"
        (Msg.mesh_message "hello" none)).1.total_messages =
      bridgeRouted.total_messages + 1 :=
  ⟨(C7_relay_counters openAll allOpen_openAll bridgeRouted 6 "B" "hello").2.1 (some "n1")
      (by decide),
   ((C7_relay_counters openAll allOpen_openAll bridgeRouted 6 "B" "hello").2.2.1 "n1" "A"
      { siteA with nodes := ["n1", "n2"] } (by decide) (by decide) (by decide) (by decide)
      (by decide)).1,
   ((C7_relay_counters openAll allOpen_openAll bridgeRouted 6 "B" "hello").2.2.1 "n1" "A"
      { siteA with nodes := ["n1", "n2"] } (by decide) (by decide) (by decide) (by decide)
      (by decide)).2 (by decide),
   (C7_relay_counters openAll allOpen_openAll bridgeRouted 6 "B" "hello").2.2.2.1 none
      (by decide) (Or.inl (by decide)),
   (C7_relay_counters openAll allOpen_openAll bridgeRouted 6 "B" "hello").2.1 none
      (by decide)⟩

/-! ### Claim C10 — nodes_update precondition -/

/-- C10: processing a `nodes_update` is exception-free exactly when the
sender is registered; for an unregistered sender the handler raises
`KeyError` — after having already inserted routing entries owned by the
missing site. -/
theorem C10_nodes_update_precondition (openQ : Nat → Bool) (b : Bridge) (now : Nat)
    (sid : String) (nodes : List String) :
    (∀ site, dictLookup b.sites sid = some site →
       (handle_message openQ b now sid (Msg.nodes_update nodes)).2.2 = none) ∧
    (dictLookup b.sites sid = none →
       (handle_message openQ b now sid (Msg.nodes_update nodes)).2.2 = some "KeyError" ∧
       ∀ n ∈ nodes,
         find_route (handle_message openQ b now sid (Msg.nodes_update nodes)).1 n =
           some sid) := by
  constructor
  · intro site h
    have hs := update_routing_sites_found (b := b) nodes h
    simp only [handle_message, hs, dictLookup_insert_self]
  · intro h
    have hs := update_routing_sites_not_found (b := b) nodes h
    refine ⟨?_, ?_⟩
    · simp only [handle_message, hs, h]
    · intro n hn
      have hst : (handle_message openQ b now sid (Msg.nodes_update nodes)).1 =
          update_routing b sid nodes := by
        simp only [handle_message, hs, h]
      rw [hst]
      exact find_route_update_mem b sid nodes n hn

/-- Witness for C10: on `bridgeAB`, a `nodes_update` from registered `A`
raises nothing, while one from unregistered `Z` raises `KeyError` with the
route for `q1` already pointing at `Z`. -/
theorem C10_nodes_update_precondition_witness :
    (handle_message openAll bridgeAB 4 "A" (Msg.nodes_update ["q1"])).2.2 = none ∧
    (handle_message openAll bridgeAB 4 "Z" (Msg.nodes_update ["q1"])).2.2 = some "KeyError" ∧
    find_route (handle_message openAll bridgeAB 4 "Z" (Msg.nodes_update ["q1"])).1 "q1" =
      some "Z" :=
  ⟨(C10_nodes_update_precondition openAll bridgeAB 4 "A" ["q1"]).1 siteA (by decide),
   ((C10_nodes_update_precondition openAll bridgeAB 4 "Z" ["q1"]).2 (by decide)).1,
   ((C10_nodes_update_precondition openAll bridgeAB 4 "Z" ["q1"]).2 (by decide)).2 "q1"
     (by decide)⟩

end WanBridge
